import Mathlib

/-!
Verification of the graph-filter-service query compiler and orchestrator.

The definitions below are a shallow embedding of the Python sources:
  * `app/core/enums.py` — `ComparisonOperator`, `LogicalOperator`, `RelationshipDirection`
  * `app/core/models.py` — `PropertyFilter`, `NodeCriteria`, `RelationshipCriteria`,
    `GraphFilterRequest`, response models
  * `app/services/query_builder.py` — `CypherQueryBuilder`
  * `app/services/filter_service.py` — `_validate_filter_request`, `FilterService`
  * `app/core/exceptions.py` — `QueryExecutionException`

Compiled query text is modelled as a list of segments (`Seg`): a literal piece of
text or a parameter reference rendered as `$key`.  Concatenating the rendered
segments gives exactly the string the Python f-strings build, while keeping the
set of parameter references available for proofs.  Parameter maps are modelled
as insertion-ordered association lists with Python-dict update semantics.
-/

namespace GraphFilter

/-- Values carried by filters and parameter maps (Python scalars and lists of
scalars; floats are not needed by any property under verification). -/
inductive Value where
  | str (s : String)
  | int (n : Int)
  | bool (b : Bool)
  | strList (l : List String)
  | intList (l : List Int)
  | none
deriving DecidableEq

/-- `app/core/enums.py`: `ComparisonOperator` (a `str` enum with 12 members). -/
inductive ComparisonOperator where
  | EQUAL | NOT_EQUAL | GREATER | GREATER_EQUAL | LESS | LESS_EQUAL
  | CONTAINS | STARTS_WITH | ENDS_WITH | IN | NOT_IN | REGEX
deriving DecidableEq

/-- The Python enum member name (`operator.name`). -/
def ComparisonOperator.pyName : ComparisonOperator → String
  | .EQUAL => "EQUAL"
  | .NOT_EQUAL => "NOT_EQUAL"
  | .GREATER => "GREATER"
  | .GREATER_EQUAL => "GREATER_EQUAL"
  | .LESS => "LESS"
  | .LESS_EQUAL => "LESS_EQUAL"
  | .CONTAINS => "CONTAINS"
  | .STARTS_WITH => "STARTS_WITH"
  | .ENDS_WITH => "ENDS_WITH"
  | .IN => "IN"
  | .NOT_IN => "NOT_IN"
  | .REGEX => "REGEX"

/-- The Python enum member value (`operator.value`). -/
def ComparisonOperator.pyValue : ComparisonOperator → String
  | .EQUAL => "="
  | .NOT_EQUAL => "!="
  | .GREATER => ">"
  | .GREATER_EQUAL => ">="
  | .LESS => "<"
  | .LESS_EQUAL => "<="
  | .CONTAINS => "CONTAINS"
  | .STARTS_WITH => "STARTS WITH"
  | .ENDS_WITH => "ENDS WITH"
  | .IN => "IN"
  | .NOT_IN => "NOT IN"
  | .REGEX => "=~"

/-- `app/core/enums.py`: `LogicalOperator`. -/
inductive LogicalOperator where
  | AND | OR | NOT
deriving DecidableEq

def LogicalOperator.pyValue : LogicalOperator → String
  | .AND => "AND"
  | .OR => "OR"
  | .NOT => "NOT"

/-- `app/core/enums.py`: `RelationshipDirection`. -/
inductive RelationshipDirection where
  | INCOMING | OUTGOING | BOTH
deriving DecidableEq

/-- `app/core/models.py`: `PropertyFilter`. -/
structure PropertyFilter where
  property_name : String
  operator : ComparisonOperator
  value : Value
deriving DecidableEq

/-- `app/core/models.py`: `NodeCriteria` (with its pydantic defaults). -/
structure NodeCriteria where
  node_types : List String := []
  property_filters : List PropertyFilter := []
  logical_operator : LogicalOperator := .AND
deriving DecidableEq

/-- `app/core/models.py`: `RelationshipCriteria`.  Depths are `int` fields in
Python; the pydantic bound `ge=1` lives in request parsing, not in the compiler,
so they are modelled as unconstrained integers here. -/
structure RelationshipCriteria where
  relationship_types : List String := []
  property_filters : List PropertyFilter := []
  direction : Option RelationshipDirection := some .OUTGOING
  min_depth : Int := 1
  max_depth : Int := 1
deriving DecidableEq

/-- `app/core/models.py`: `GraphFilterRequest`. -/
structure GraphFilterRequest where
  source_nodes : List NodeCriteria := []
  relationships : List RelationshipCriteria := []
  target_nodes : List NodeCriteria := []
  search_query : Option String := Option.none
  limit : Int := 100
  skip : Int := 0
deriving DecidableEq

/-! ### Parameter maps (Python dict with insertion order) -/

abbrev Params := List (String × Value)

/-- `d[k] = v` on a Python dict: overwrite in place if the key exists,
otherwise append at the end (insertion order is preserved). -/
def dictInsert {α : Type} (m : List (String × α)) (k : String) (v : α) :
    List (String × α) :=
  if k ∈ m.map Prod.fst then
    m.map (fun p => if p.1 = k then (k, v) else p)
  else
    m ++ [(k, v)]

/-- `d.update(d')` on Python dicts. -/
def dictUpdate {α : Type} (m m' : List (String × α)) : List (String × α) :=
  m'.foldl (fun acc p => dictInsert acc p.1 p.2) m

def keysOf {α : Type} (m : List (String × α)) : List String := m.map Prod.fst

/-! ### Query text as segments -/

/-- One piece of compiled query text: literal text, or a `$key` parameter
reference (the f-string interpolation `${param_key}`). -/
inductive Seg where
  | lit (s : String)
  | param (k : String)
deriving DecidableEq

def Seg.render : Seg → String
  | .lit s => s
  | .param k => "$" ++ k

/-- Concatenation of the rendered segments: the actual query string. -/
def renderSegs : List Seg → String
  | [] => ""
  | s :: rest => s.render ++ renderSegs rest

/-- The parameter names referenced by a piece of query text. -/
def segRefs (l : List Seg) : List String :=
  l.filterMap fun s => match s with
    | .param k => some k
    | .lit _ => Option.none

/-- `sep.flatten(fragments)` on a list of fragments. -/
def joinSegs (sep : String) : List (List Seg) → List Seg
  | [] => []
  | [x] => x
  | x :: xs => x ++ [Seg.lit sep] ++ joinSegs sep xs

/-! ### `CypherQueryBuilder._build_property_condition` -/

/-- `prop_filter.property_name.replace(".", "_").replace("-", "_")`: both
patterns are single characters, so the two `str.replace` calls amount to
mapping every `.` and `-` to `_`. -/
def sanitizeProp (s : String) : String :=
  ⟨s.data.map fun c => if c = '.' then '_' else if c = '-' then '_' else c⟩

/-- ASCII case folding, as `str.lower()` acts on the (pure-ASCII) operator
names involved here. -/
def lowerChar (c : Char) : Char :=
  if 'A' ≤ c ∧ c ≤ 'Z' then Char.ofNat (c.toNat + 32) else c

def lowerString (s : String) : String := ⟨s.data.map lowerChar⟩

/-- The lowered enum-member name used in the parameter key
(`prop_filter.operator.name.lower()`). -/
def opLower (o : ComparisonOperator) : String := lowerString o.pyName

/-- The generated parameter key
`f"{param_prefix}_{safe_prop}_{prop_filter.operator.name.lower()}"`. -/
def condKey (paramPfx : String) (pf : PropertyFilter) : String :=
  paramPfx ++ "_" ++ sanitizeProp pf.property_name ++ "_" ++ opLower pf.operator

/-- `CypherQueryBuilder._build_property_condition` for operator values that are
members of `ComparisonOperator` (the only values pydantic lets through).  Each
branch mirrors one `case` of the Python `match`; the `case _` default is
unreachable for enum members and is modelled by `buildPropertyConditionRaw`. -/
def buildPropertyCondition (pf : PropertyFilter) (varName : String)
    (paramPfx : String) : List Seg × Params :=
  let paramKey := condKey paramPfx pf
  let propRef := varName ++ "." ++ pf.property_name
  let params : Params := [(paramKey, pf.value)]
  let condition : List Seg :=
    match pf.operator with
    | .EQUAL => [.lit (propRef ++ " = "), .param paramKey]
    | .NOT_EQUAL => [.lit (propRef ++ " <> "), .param paramKey]
    | .GREATER => [.lit (propRef ++ " > "), .param paramKey]
    | .GREATER_EQUAL => [.lit (propRef ++ " >= "), .param paramKey]
    | .LESS => [.lit (propRef ++ " < "), .param paramKey]
    | .LESS_EQUAL => [.lit (propRef ++ " <= "), .param paramKey]
    | .CONTAINS => [.lit (propRef ++ " CONTAINS "), .param paramKey]
    | .STARTS_WITH => [.lit (propRef ++ " STARTS WITH "), .param paramKey]
    | .ENDS_WITH => [.lit (propRef ++ " ENDS WITH "), .param paramKey]
    | .IN => [.lit (propRef ++ " IN "), .param paramKey]
    | .NOT_IN => [.lit ("NOT " ++ propRef ++ " IN "), .param paramKey]
    | .REGEX => [.lit (propRef ++ " =~ "), .param paramKey]
  (condition, params)

/-- A runtime operator object as `_build_property_condition` actually sees it:
anything with a `.name` attribute whose `match` comparison uses `str`-enum
value equality (e.g. a member of another `str` enum).  `value` is the string
the Python `case` patterns compare against. -/
structure RawOperator where
  name : String
  value : String
deriving DecidableEq

/-- `CypherQueryBuilder._build_property_condition` over a raw operator object:
the `match` falls through the twelve `case` patterns by `str`-enum value
equality and lands on the wildcard `case _`, which emits `{prop_ref} = $key`. -/
def buildPropertyConditionRaw (property_name : String) (op : RawOperator)
    (v : Value) (varName : String) (paramPfx : String) : List Seg × Params :=
  let safeProp := sanitizeProp property_name
  let paramKey := paramPfx ++ "_" ++ safeProp ++ "_" ++ lowerString op.name
  let propRef := varName ++ "." ++ property_name
  let params : Params := [(paramKey, v)]
  let condition : List Seg :=
    if op.value = "=" then [.lit (propRef ++ " = "), .param paramKey]
    else if op.value = "!=" then [.lit (propRef ++ " <> "), .param paramKey]
    else if op.value = ">" then [.lit (propRef ++ " > "), .param paramKey]
    else if op.value = ">=" then [.lit (propRef ++ " >= "), .param paramKey]
    else if op.value = "<" then [.lit (propRef ++ " < "), .param paramKey]
    else if op.value = "<=" then [.lit (propRef ++ " <= "), .param paramKey]
    else if op.value = "CONTAINS" then [.lit (propRef ++ " CONTAINS "), .param paramKey]
    else if op.value = "STARTS WITH" then [.lit (propRef ++ " STARTS WITH "), .param paramKey]
    else if op.value = "ENDS WITH" then [.lit (propRef ++ " ENDS WITH "), .param paramKey]
    else if op.value = "IN" then [.lit (propRef ++ " IN "), .param paramKey]
    else if op.value = "NOT IN" then [.lit ("NOT " ++ propRef ++ " IN "), .param paramKey]
    else if op.value = "=~" then [.lit (propRef ++ " =~ "), .param paramKey]
    else [.lit (propRef ++ " = "), .param paramKey]
  (condition, params)

/-! ### `CypherQueryBuilder._build_node_block`

The Python loop `for pf in ...: prop_conds.append(c); params.update(p)`
collects the fragments in order and merges the one-entry parameter dicts in the
same order; it is written below as a `map` for the fragments and a `foldl` of
`dictUpdate` for the parameters, which produces the identical result. -/

/-- The fragments of the block's property conditions (`prop_conds`). -/
def nodeBlockPropConds (criteria : NodeCriteria) (var pKey : String) :
    List (List Seg) :=
  criteria.property_filters.map fun pf => (buildPropertyCondition pf var pKey).1

/-- The block's `conds` list: optional label-membership test, then the
combined property conditions. -/
def nodeBlockConds (criteria : NodeCriteria) (var pKey : String) :
    List (List Seg) :=
  (if criteria.node_types.isEmpty then [] else
    [[Seg.lit ("any(l IN labels(" ++ var ++ ") WHERE l IN "),
      Seg.param (pKey ++ "_labels"), Seg.lit ")"]]) ++
  (if (nodeBlockPropConds criteria var pKey).isEmpty then [] else
    [[Seg.lit "("] ++
      joinSegs (" " ++ criteria.logical_operator.pyValue ++ " ")
        (nodeBlockPropConds criteria var pKey) ++
      [Seg.lit ")"]])

/-- The block's `params` dict: the optional labels entry, then the property
conditions' entries merged in loop order. -/
def nodeBlockParams (criteria : NodeCriteria) (var pKey : String) : Params :=
  criteria.property_filters.foldl
    (fun ps pf => dictUpdate ps (buildPropertyCondition pf var pKey).2)
    (if criteria.node_types.isEmpty then [] else
      [(pKey ++ "_labels", Value.strList criteria.node_types)])

def buildNodeBlock (criteria : NodeCriteria) (var : String) (idx : Nat)
    (pfx : String) : List Seg × Params :=
  let pKey := pfx ++ Nat.repr idx
  if (nodeBlockConds criteria var pKey).isEmpty then ([], []) else
    ([Seg.lit "("] ++ joinSegs " AND " (nodeBlockConds criteria var pKey) ++
      [Seg.lit ")"], nodeBlockParams criteria var pKey)

/-! ### `CypherQueryBuilder._build_rel_block_variable` -/

/-- The `type(r) IN $relN_types` condition (shared text shape of the simple
and variable builders, both of which bind the relationship variable `r`). -/
def relBlockTypeConds (criteria : RelationshipCriteria) (relVar pKey : String) :
    List (List Seg) :=
  if criteria.relationship_types.isEmpty then [] else
    [[Seg.lit ("type(" ++ relVar ++ ") IN "), Seg.param (pKey ++ "_types")]]

def relBlockPropConds (criteria : RelationshipCriteria) (relVar pKey : String) :
    List (List Seg) :=
  criteria.property_filters.map fun pf => (buildPropertyCondition pf relVar pKey).1

def relBlockParams (criteria : RelationshipCriteria) (relVar pKey : String) :
    Params :=
  criteria.property_filters.foldl
    (fun ps pf => dictUpdate ps (buildPropertyCondition pf relVar pKey).2)
    (if criteria.relationship_types.isEmpty then [] else
      [(pKey ++ "_types", Value.strList criteria.relationship_types)])

def buildRelBlockVariable (criteria : RelationshipCriteria) (pathVar : String)
    (idx : Nat) : List Seg × Params :=
  let pKey := "rel" ++ Nat.repr idx
  let conds := relBlockTypeConds criteria "r" pKey ++
    relBlockPropConds criteria "r" pKey
  let innerLogic : List Seg :=
    if conds.isEmpty then [Seg.lit "true"] else joinSegs " AND " conds
  let fullLogic : List Seg :=
    [Seg.lit ("ALL(" ++ "r" ++ " IN relationships(" ++ pathVar ++ ") WHERE ")] ++
      innerLogic ++ [Seg.lit ")"]
  let lengthLogic : List Seg :=
    [Seg.lit ("(length(" ++ pathVar ++ ") >= " ++ toString criteria.min_depth ++
      " AND length(" ++ pathVar ++ ") <= " ++ toString criteria.max_depth ++ ")")]
  ([Seg.lit "("] ++ lengthLogic ++ [Seg.lit " AND "] ++ fullLogic ++ [Seg.lit ")"],
    relBlockParams criteria "r" pKey)

/-! ### `CypherQueryBuilder._build_rel_block_simple` -/

/-- `conds` of the simple builder: types, properties, then the direction
predicate. -/
def relSimpleConds (criteria : RelationshipCriteria) (pKey : String) :
    List (List Seg) :=
  let condsProps := relBlockTypeConds criteria "r" pKey ++
    relBlockPropConds criteria "r" pKey
  if criteria.direction = some .OUTGOING then
    condsProps ++ [[Seg.lit "startNode(r) = n"]]
  else if criteria.direction = some .INCOMING then
    condsProps ++ [[Seg.lit "endNode(r) = n"]]
  else condsProps

def buildRelBlockSimple (criteria : RelationshipCriteria) (idx : Nat) :
    List Seg × Params :=
  let pKey := "rel" ++ Nat.repr idx
  if (relSimpleConds criteria pKey).isEmpty then ([], []) else
    ([Seg.lit "("] ++ joinSegs " AND " (relSimpleConds criteria pKey) ++
      [Seg.lit ")"], relBlockParams criteria "r" pKey)

/-! ### Assembling blocks per role

`for i, c in enumerate(lst): b, p = build(c, i); if b: blocks.append(b);
params.update(p)` — realised as an indexed map followed by a truthiness filter
(a fragment is skipped exactly when it is the empty string, i.e. no segments). -/

def builtBlocks {α : Type} (build : α → Nat → List Seg × Params) :
    List α → Nat → List (List Seg × Params)
  | [], _ => []
  | c :: cs, i => build c i :: builtBlocks build cs (i + 1)

def keptBlocks {α : Type} (build : α → Nat → List Seg × Params)
    (l : List α) : List (List Seg × Params) :=
  (builtBlocks build l 0).filter fun bp => !bp.1.isEmpty

def blocksText {α : Type} (build : α → Nat → List Seg × Params)
    (l : List α) : List (List Seg) :=
  (keptBlocks build l).map Prod.fst

def blocksParams {α : Type} (build : α → Nat → List Seg × Params)
    (l : List α) (init : Params) : Params :=
  (keptBlocks build l).foldl (fun ps bp => dictUpdate ps bp.2) init

/-- Python truthiness of the optional search string in the query builder
(`if req.search_query:` — `None` and `""` are falsy). -/
def searchActive (q : Option String) : Bool :=
  match q with
  | some s => s ≠ ""
  | Option.none => false

/-! ### `CypherQueryBuilder.build_node_query` -/

def buildNodeQuery (req : GraphFilterRequest) : List Seg × Params :=
  let srcBlocks := blocksText (fun c i => buildNodeBlock c "n" i "s") req.source_nodes
  let params0 := blocksParams (fun c i => buildNodeBlock c "n" i "s") req.source_nodes []
  let wheres0 : List (List Seg) :=
    if srcBlocks.isEmpty then [] else
      [[Seg.lit "("] ++ joinSegs " OR " srcBlocks ++ [Seg.lit ")"]]
  let wheres : List (List Seg) :=
    if searchActive req.search_query then
      wheres0 ++
        [[Seg.lit "(any(l in labels(n) WHERE l =~ ", Seg.param "g_search",
          Seg.lit ") OR any(k in keys(n) WHERE toString(n[k]) =~ ",
          Seg.param "g_search", Seg.lit "))"]]
    else wheres0
  let params1 :=
    if searchActive req.search_query then
      dictInsert params0 "g_search"
        (Value.str ("(?i).*" ++ (req.search_query.getD "") ++ ".*"))
    else params0
  let query : List Seg := [Seg.lit "MATCH (n)"]
  let query :=
    if wheres.isEmpty then query else
      query ++ [Seg.lit "\nWHERE "] ++ joinSegs " AND " wheres
  let query := query ++ [Seg.lit "\nRETURN n, labels(n) as node_labels, id(n) as node_id"]
  let query := query ++
    [Seg.lit ("\nSKIP " ++ toString req.skip ++ " LIMIT " ++ toString req.limit)]
  (query, params1)

/-! ### `CypherQueryBuilder.build_relationship_query` -/

/-- `any((r.min_depth != 1 or r.max_depth != 1) for r in req.relationships)`. -/
def useVariablePath (req : GraphFilterRequest) : Bool :=
  req.relationships.any fun r => r.min_depth != 1 || r.max_depth != 1

/-- `min((r.min_depth for r in ...), default=1)` — computed by the Python code
but never used in the MATCH pattern (the lower bound is hardcoded to 1). -/
def globalMinDepth (req : GraphFilterRequest) : Int :=
  match req.relationships.map (·.min_depth) with
  | [] => 1
  | x :: xs => xs.foldl min x

/-- `max((r.max_depth for r in ...), default=1)`. -/
def globalMaxDepth (req : GraphFilterRequest) : Int :=
  match req.relationships.map (·.max_depth) with
  | [] => 1
  | x :: xs => xs.foldl max x

def buildRelationshipQuery (req : GraphFilterRequest) : List Seg × Params :=
  let varMode := useVariablePath req
  let queryHead : List Seg :=
    if varMode then
      -- the lower bound of the MATCH pattern is hardcoded to 1 (source comment:
      -- "We hardcode 1 as min in MATCH to avoid missing paths")
      [Seg.lit ("MATCH p = (n)-[*1.." ++ toString (globalMaxDepth req) ++ "]-(m)")]
    else
      [Seg.lit "MATCH (n)-[r]-(m)"]
  let srcBlocks := blocksText (fun c i => buildNodeBlock c "n" i "s") req.source_nodes
  let params0 := blocksParams (fun c i => buildNodeBlock c "n" i "s") req.source_nodes []
  let tgtBlocks := blocksText (fun c i => buildNodeBlock c "m" i "t") req.target_nodes
  let params1 := blocksParams (fun c i => buildNodeBlock c "m" i "t") req.target_nodes params0
  let relBuild : RelationshipCriteria → Nat → List Seg × Params :=
    fun c i => if varMode then buildRelBlockVariable c "p" i else buildRelBlockSimple c i
  let relBlocks := blocksText relBuild req.relationships
  let params2 := blocksParams relBuild req.relationships params1
  let wheres : List (List Seg) :=
    (if srcBlocks.isEmpty then [] else
      [[Seg.lit "("] ++ joinSegs " OR " srcBlocks ++ [Seg.lit ")"]]) ++
    (if tgtBlocks.isEmpty then [] else
      [[Seg.lit "("] ++ joinSegs " OR " tgtBlocks ++ [Seg.lit ")"]]) ++
    (if relBlocks.isEmpty then [] else
      [[Seg.lit "("] ++ joinSegs " OR " relBlocks ++ [Seg.lit ")"]])
  let query := queryHead
  let query :=
    if wheres.isEmpty then query else
      query ++ [Seg.lit "\nWHERE "] ++ joinSegs " AND " wheres
  let query :=
    if varMode then
      query ++ [Seg.lit "\nWITH n, m, p, last(relationships(p)) as r",
        Seg.lit "\nRETURN n, r, m, type(r) as rel_type, id(r) as rel_id"]
    else
      query ++ [Seg.lit "\nRETURN n, r, m, type(r) as rel_type, id(r) as rel_id"]
  let query := query ++
    [Seg.lit ("\nSKIP " ++ toString req.skip ++ " LIMIT " ++ toString req.limit)]
  (query, params2)

/-! ### `app/core/exceptions.py`: `QueryExecutionException` -/

/-- A value stored in an exception's `details` dict.  `paramMap` is present in
the type so that "the details never contain the compiled parameter map" is a
meaningful statement about the constructed exceptions. -/
inductive DetailValue where
  | str (s : String)
  | paramMap (p : Params)
deriving DecidableEq

structure QueryExecutionException where
  message : String
  status_code : Nat
  details : List (String × DetailValue)
deriving DecidableEq

/-- `QueryExecutionException.__init__` (with `details=None`): truncate the
query at 500 characters, suffix `"... (truncated)"` when longer, then store
query / cypher_error / error_code under their keys when truthy. -/
def mkQueryExecutionException (message : String) (query : Option String)
    (cypher_error : Option String) (error_code : Option String) :
    QueryExecutionException :=
  let d0 : List (String × DetailValue) := []
  let d1 :=
    match query with
    | some q =>
      if q = "" then d0 else
        let truncated := q.take 500 ++ (if q.length > 500 then "... (truncated)" else "")
        dictInsert d0 "query" (DetailValue.str truncated)
    | Option.none => d0
  let d2 :=
    match cypher_error with
    | some e => if e = "" then d1 else dictInsert d1 "cypher_error" (DetailValue.str e)
    | Option.none => d1
  let d3 :=
    match error_code with
    | some c => if c = "" then d2 else dictInsert d2 "error_code" (DetailValue.str c)
    | Option.none => d2
  { message := message, status_code := 500, details := d3 }

/-! ### `app/services/filter_service.py` -/

/-- Errors surfaced by the service layer: a structured
`InvalidFilterException(message, filter_type)` from validation, or the wrapped
`QueryExecutionException` from execution. -/
inductive ServiceError where
  | invalidFilter (message : String) (filter_type : String)
  | queryExecution (e : QueryExecutionException)
deriving DecidableEq

/-- `str.strip()`: drop leading and trailing whitespace. -/
def pyStrip (s : String) : String :=
  ⟨((s.data.dropWhile Char.isWhitespace).reverse.dropWhile Char.isWhitespace).reverse⟩

/-- `filter_request.search_query is not None and filter_request.search_query.strip() != ""`. -/
def hasSearchCriterion (q : Option String) : Bool :=
  match q with
  | some s => pyStrip s ≠ ""
  | Option.none => false

/-- `_validate_filter_request`: returns the raised `InvalidFilterException`'s
`(message, filter_type)` if any check fires, else `none`.  There is no check on
`skip` in the source. -/
def validateFilterRequest (req : GraphFilterRequest) :
    Option (String × String) :=
  let hasSource := req.source_nodes.length > 0
  let hasRels := req.relationships.length > 0
  let hasTarget := req.target_nodes.length > 0
  let hasSearch := hasSearchCriterion req.search_query
  if ¬(hasSource ∨ hasRels ∨ hasTarget ∨ hasSearch) then
    some ("At least one filter criterion (Source, Relationship, Target, or Search) must be provided",
      "request")
  else if req.limit < 1 then
    some ("Limit must be at least 1", "pagination")
  else
    Option.none

structure NodeResponse where
  id : Int
  labels : List String
  properties : List (String × Value)
deriving DecidableEq

structure RelationshipResponse where
  id : Int
  type : String
  source : NodeResponse
  target : NodeResponse
  properties : List (String × Value)
deriving DecidableEq

structure FilterResponse (α : Type) where
  total : Int
  limit : Int
  skip : Int
  data : List α
  active_filters : Option (List String)
deriving DecidableEq

/-- The external store session: `session.run(query, params)` either yields the
records of one execution (already mapped to response entities — the
record-to-entity field extraction is a driver-boundary concern outside these
claims) or raises, with `str(e)` as the error text. -/
abbrev StoreRun (α : Type) := String → Params → Except String (List α)

/-- `FilterService._format_value`. -/
def formatValue (v : Value) : String :=
  match v with
  | .str s => if s.length > 20 then "\"" ++ s.take 17 ++ "...\"" else s
  | .int n => toString n
  | .bool b => if b then "True" else "False"
  | .strList l => "[" ++ String.intercalate ", " (l.map fun s => "'" ++ s ++ "'") ++ "]"
  | .intList l => "[" ++ String.intercalate ", " (l.map toString) ++ "]"
  | .none => "None"

def RelationshipDirection.pyValue : RelationshipDirection → String
  | .INCOMING => "incoming"
  | .OUTGOING => "outgoing"
  | .BOTH => "undirected"

/-- Summary lines for source-node blocks (`for idx, node_filter in enumerate(...)`). -/
def summarySourceLines : List NodeCriteria → Nat → List String
  | [], _ => []
  | c :: cs, idx =>
    let pfxS := "Source #" ++ Nat.repr (idx + 1)
    ((if c.node_types.isEmpty then [] else
        [pfxS ++ " Types: " ++ String.intercalate ", " c.node_types]) ++
      c.property_filters.map (fun pf =>
        pfxS ++ " " ++ pf.property_name ++ " " ++ pf.operator.pyValue ++ " " ++
          formatValue pf.value)) ++
      summarySourceLines cs (idx + 1)

/-- Summary lines for relationship blocks. -/
def summaryRelLines : List RelationshipCriteria → Nat → List String
  | [], _ => []
  | c :: cs, idx =>
    let pfxS := "Rel #" ++ Nat.repr (idx + 1)
    ((if c.relationship_types.isEmpty then [] else
        [pfxS ++ " Types: " ++ String.intercalate ", " c.relationship_types]) ++
      (match c.direction with
        | some d => [pfxS ++ " Dir: " ++ d.pyValue]
        | Option.none => []) ++
      c.property_filters.map (fun pf =>
        pfxS ++ " Prop: " ++ pf.property_name ++ " " ++ pf.operator.pyValue ++ " " ++
          formatValue pf.value)) ++
      summaryRelLines cs (idx + 1)

/-- Summary lines for target-node blocks (the source only reports types here). -/
def summaryTargetLines : List NodeCriteria → Nat → List String
  | [], _ => []
  | c :: cs, idx =>
    let pfxS := "Target #" ++ Nat.repr (idx + 1)
    (if c.node_types.isEmpty then [] else
        [pfxS ++ " Types: " ++ String.intercalate ", " c.node_types]) ++
      summaryTargetLines cs (idx + 1)

/-- `FilterService.get_active_filters_summary`. -/
def getActiveFiltersSummary (req : GraphFilterRequest) : List String :=
  summarySourceLines req.source_nodes 0 ++
    summaryRelLines req.relationships 0 ++
    summaryTargetLines req.target_nodes 0 ++
    (if searchActive req.search_query then
      ["Global Search: " ++ req.search_query.getD ""] else [])

/-- `FilterService.filter_nodes`: validate, build, execute, wrap failures.
Validation errors abort before any query is built or the store is touched. -/
def filterNodes (req : GraphFilterRequest) (run : StoreRun NodeResponse) :
    Except ServiceError (List NodeResponse) :=
  match validateFilterRequest req with
  | some e => .error (.invalidFilter e.1 e.2)
  | Option.none =>
    let built := buildNodeQuery req
    let query := renderSegs built.1
    match run query built.2 with
    | .ok nodes => .ok nodes
    | .error e =>
      .error (.queryExecution
        (mkQueryExecutionException "Failed to execute node query"
          (some query) (some e) Option.none))

/-- `FilterService.filter_relationships`. -/
def filterRelationships (req : GraphFilterRequest)
    (run : StoreRun RelationshipResponse) :
    Except ServiceError (List RelationshipResponse) :=
  match validateFilterRequest req with
  | some e => .error (.invalidFilter e.1 e.2)
  | Option.none =>
    let built := buildRelationshipQuery req
    let query := renderSegs built.1
    match run query built.2 with
    | .ok rels => .ok rels
    | .error e =>
      .error (.queryExecution
        (mkQueryExecutionException "Failed to execute relationship query"
          (some query) (some e) Option.none))

/-- `FilterService.filter_nodes_with_count`. -/
def filterNodesWithCount (req : GraphFilterRequest) (run : StoreRun NodeResponse) :
    Except ServiceError (FilterResponse NodeResponse) :=
  match filterNodes req run with
  | .error e => .error e
  | .ok nodes =>
    .ok { total := nodes.length, limit := req.limit, skip := req.skip,
          data := nodes, active_filters := some (getActiveFiltersSummary req) }

/-- `FilterService.filter_relationships_with_count`. -/
def filterRelationshipsWithCount (req : GraphFilterRequest)
    (run : StoreRun RelationshipResponse) :
    Except ServiceError (FilterResponse RelationshipResponse) :=
  match filterRelationships req run with
  | .error e => .error e
  | .ok rels =>
    .ok { total := rels.length, limit := req.limit, skip := req.skip,
          data := rels, active_filters := some (getActiveFiltersSummary req) }

/-! ## Infrastructure lemmas -/

/-- Boolean prefix test on character lists (used to state facts about the head
of compiled query text). -/
def isPrefixList : List Char → List Char → Bool
  | [], _ => true
  | _ :: _, [] => false
  | a :: as, b :: bs => a == b && isPrefixList as bs

/-- Boolean contiguous-substring test on character lists. -/
def isInfixList (p : List Char) : List Char → Bool
  | [] => isPrefixList p []
  | l@(_ :: rest) => isPrefixList p l || isInfixList p rest

/-- `s` starts with `p`. -/
def strStartsWith (p s : String) : Bool := isPrefixList p.data s.data

/-- `p` occurs contiguously inside `s`. -/
def strHasInfix (p s : String) : Bool := isInfixList p.data s.data

theorem isPrefixList_self_append (l m : List Char) :
    isPrefixList l (l ++ m) = true := by
  induction l with
  | nil => rfl
  | cons a as ih => simp [isPrefixList, ih]

theorem isPrefixList_append_false (p q : List Char)
    (h : isPrefixList p q = false) (hlen : p.length ≤ q.length) (t : List Char) :
    isPrefixList p (q ++ t) = false := by
  induction p generalizing q with
  | nil => simp [isPrefixList] at h
  | cons a as ih =>
    cases q with
    | nil => simp at hlen
    | cons b bs =>
      simp only [isPrefixList, Bool.and_eq_false_iff] at h
      rcases h with h | h
      · simp [isPrefixList, h]
      · simp only [List.cons_append, isPrefixList, Bool.and_eq_false_iff]
        right
        exact ih bs h (by simpa using hlen)

theorem isInfixList_append_left (p b : List Char) :
    isInfixList p (p ++ b) = true := by
  cases p with
  | nil =>
    cases b with
    | nil => rfl
    | cons x xs => simp [isInfixList, isPrefixList]
  | cons a as =>
    have h : isPrefixList (a :: as) (a :: as ++ b) = true :=
      isPrefixList_self_append _ _
    simp only [List.cons_append, isInfixList, Bool.or_eq_true]
    left
    simpa using h

theorem isInfixList_of_append (a p b : List Char) :
    isInfixList p (a ++ p ++ b) = true := by
  induction a with
  | nil => simpa using isInfixList_append_left p b
  | cons x xs ih =>
    show isInfixList p (x :: (xs ++ p ++ b)) = true
    simp only [isInfixList, Bool.or_eq_true]
    right
    exact ih

theorem renderSegs_append (a b : List Seg) :
    renderSegs (a ++ b) = renderSegs a ++ renderSegs b := by
  induction a with
  | nil => simp [renderSegs]
  | cons s rest ih => simp [renderSegs, ih, String.append_assoc]

theorem renderSegs_ne_empty_of_lit (s : String) (hs : s ≠ "") (rest : List Seg) :
    renderSegs (Seg.lit s :: rest) ≠ "" := by
  intro h
  have hd := congrArg String.data h
  simp only [renderSegs, Seg.render, String.data_append] at hd
  exact hs (String.ext (List.append_eq_nil.mp hd).1)

/-! ### Dict lemmas -/

theorem keysOf_dictInsert {α : Type} (m : List (String × α)) (k : String) (v : α) :
    keysOf (dictInsert m k v) =
      if k ∈ keysOf m then keysOf m else keysOf m ++ [k] := by
  unfold dictInsert keysOf
  by_cases h : k ∈ m.map Prod.fst
  · rw [if_pos h, if_pos h, List.map_map]
    apply List.map_congr_left
    intro p _
    by_cases hp : p.1 = k
    · simp [Function.comp, hp]
    · simp [Function.comp, hp]
  · rw [if_neg h, if_neg h]
    simp

theorem mem_keysOf_dictInsert {α : Type} (m : List (String × α)) (k a : String)
    (v : α) (h : a ∈ keysOf m ∨ a = k) : a ∈ keysOf (dictInsert m k v) := by
  rw [keysOf_dictInsert]
  by_cases hk : k ∈ keysOf m
  · rw [if_pos hk]
    rcases h with h | h
    · exact h
    · exact h ▸ hk
  · rw [if_neg hk]
    rcases h with h | h
    · exact List.mem_append_left _ h
    · exact h ▸ List.mem_append_right _ (by simp)

theorem nodup_keysOf_dictInsert {α : Type} (m : List (String × α)) (k : String)
    (v : α) (h : (keysOf m).Nodup) : (keysOf (dictInsert m k v)).Nodup := by
  rw [keysOf_dictInsert]
  by_cases hk : k ∈ keysOf m
  · rwa [if_pos hk]
  · rw [if_neg hk]
    simpa [List.nodup_append] using ⟨h, hk⟩

theorem keysOf_dictUpdate_sub {α : Type} (m m' : List (String × α)) :
    ∀ a, (a ∈ keysOf m ∨ a ∈ keysOf m') → a ∈ keysOf (dictUpdate m m') := by
  unfold dictUpdate
  induction m' generalizing m with
  | nil =>
    intro a h
    simp only [List.foldl_nil]
    exact h.resolve_right (by simp [keysOf])
  | cons p ps ih =>
    intro a h
    simp only [List.foldl_cons]
    apply ih
    rcases h with h | h
    · exact Or.inl (mem_keysOf_dictInsert m p.1 a p.2 (Or.inl h))
    · rw [keysOf, List.map_cons] at h
      rcases List.mem_cons.mp h with h | h
      · exact Or.inl (mem_keysOf_dictInsert m p.1 a p.2 (Or.inr h))
      · exact Or.inr h

theorem nodup_keysOf_dictUpdate {α : Type} (m m' : List (String × α))
    (h : (keysOf m).Nodup) : (keysOf (dictUpdate m m')).Nodup := by
  unfold dictUpdate
  induction m' generalizing m with
  | nil => simpa using h
  | cons p ps ih =>
    simp only [List.foldl_cons]
    exact ih _ (nodup_keysOf_dictInsert m p.1 p.2 h)

/-! ## Claim theorems -/

/-- The twelve operator values of the fixed `case` table in
`_build_property_condition` (the `str`-enum values pydantic accepts). -/
def supportedOpValues : List String :=
  ["=", "!=", ">", ">=", "<", "<=", "CONTAINS", "STARTS WITH", "ENDS WITH",
   "IN", "NOT IN", "=~"]

/-- Sanity: on actual `ComparisonOperator` members the raw-operator embedding
agrees with the typed one (the wildcard branch is unreachable for them). -/
theorem buildPropertyCondition_eq_raw (pf : PropertyFilter) (var pfx : String) :
    buildPropertyCondition pf var pfx =
      buildPropertyConditionRaw pf.property_name
        ⟨pf.operator.pyName, pf.operator.pyValue⟩ pf.value var pfx := by
  cases pf with
  | mk nm op v =>
    cases op <;> rfl

/-- A request used to instantiate hypotheses of proved theorems. -/
def reqW8 : GraphFilterRequest :=
  { source_nodes := [{ node_types := ["Person"],
                       property_filters := [{ property_name := "age",
                                              operator := .GREATER,
                                              value := .int 25 }] }],
    relationships := [{ relationship_types := ["KNOWS"],
                        min_depth := 1,
                        max_depth := 3 }],
    limit := 100, skip := 0 }

/-- C8: for a fixed `GraphFilterRequest`, compiling twice yields byte-identical
query text and identical parameter maps.  The compiler is embedded as a pure
function of the request — every iteration in the source ranges over
insertion-ordered lists or dicts, with no other ordering source — so two calls
on equal requests are extensionally equal. -/
theorem c8_determinism (req req' : GraphFilterRequest) (h : req = req') :
    renderSegs (buildNodeQuery req).1 = renderSegs (buildNodeQuery req').1 ∧
    (buildNodeQuery req).2 = (buildNodeQuery req').2 ∧
    renderSegs (buildRelationshipQuery req).1 =
      renderSegs (buildRelationshipQuery req').1 ∧
    (buildRelationshipQuery req).2 = (buildRelationshipQuery req').2 := by
  subst h
  exact ⟨rfl, rfl, rfl, rfl⟩

/-- Witness for C8 at a concrete request. -/
theorem c8_determinism_witness :
    renderSegs (buildNodeQuery reqW8).1 = renderSegs (buildNodeQuery reqW8).1 ∧
    (buildNodeQuery reqW8).2 = (buildNodeQuery reqW8).2 ∧
    renderSegs (buildRelationshipQuery reqW8).1 =
      renderSegs (buildRelationshipQuery reqW8).1 ∧
    (buildRelationshipQuery reqW8).2 = (buildRelationshipQuery reqW8).2 :=
  c8_determinism reqW8 reqW8 rfl

/-- C2 counterexample: an operator object outside the twelve-entry table (here
the `str`-enum member `LogicalOperator.AND`, whose `.name` is `"AND"` and whose
value compares equal to `"AND"`) is compiled by `_build_property_condition`
without any error: the wildcard `case _` silently emits an equality fragment
`n.status = $rel0_status_and`.  The claim says compilation fails instead. -/
theorem c2_counterexample :
    buildPropertyConditionRaw "status" ⟨"AND", "AND"⟩ (Value.str "x") "n" "rel0" =
      ([Seg.lit "n.status = ", Seg.param "rel0_status_and"],
       [("rel0_status_and", Value.str "x")]) := by
  rfl

/-- C2 amended: a `PropertyCondition` whose operator is outside the fixed
twelve-operator table does not fail compilation; `_build_property_condition`'s
wildcard branch silently produces an equality (`=`) fragment.  (Unknown
operator strings are rejected earlier, by the request model's enum coercion,
never by this compiler.) -/
theorem c2_unknown_operator_defaults_to_equality (nm : String) (op : RawOperator)
    (v : Value) (var pfx : String) (h : op.value ∉ supportedOpValues) :
    (buildPropertyConditionRaw nm op v var pfx).1 =
      [Seg.lit (var ++ "." ++ nm ++ " = "),
       Seg.param (pfx ++ "_" ++ sanitizeProp nm ++ "_" ++ lowerString op.name)] := by
  simp only [supportedOpValues, List.mem_cons, List.not_mem_nil, or_false,
    not_or] at h
  obtain ⟨h1, h2, h3, h4, h5, h6, h7, h8, h9, h10, h11, h12⟩ := h
  simp [buildPropertyConditionRaw, h1, h2, h3, h4, h5, h6, h7, h8, h9, h10,
    h11, h12]

/-- Witness for the C2 amended theorem at a concrete out-of-table operator. -/
theorem c2_unknown_operator_witness :
    ("AND" : String) ∉ supportedOpValues ∧
    (buildPropertyConditionRaw "status" ⟨"AND", "AND"⟩ (Value.str "x") "n" "s0").1 =
      [Seg.lit ("n" ++ "." ++ "status" ++ " = "),
       Seg.param ("s0" ++ "_" ++ sanitizeProp "status" ++ "_" ++ lowerString "AND")] :=
  ⟨by decide,
   c2_unknown_operator_defaults_to_equality "status" ⟨"AND", "AND"⟩
     (Value.str "x") "n" "s0" (by decide)⟩

/-- C10: on success, `filter_nodes_with_count` and
`filter_relationships_with_count` return a response whose `total` equals the
length of the returned `data` page (not a store-side match count), and whose
`limit` and `skip` are copied unchanged from the request. -/
theorem c10_total_is_page_length (req : GraphFilterRequest)
    (runN : StoreRun NodeResponse) (runR : StoreRun RelationshipResponse)
    (respN : FilterResponse NodeResponse)
    (respR : FilterResponse RelationshipResponse)
    (hN : filterNodesWithCount req runN = Except.ok respN)
    (hR : filterRelationshipsWithCount req runR = Except.ok respR) :
    (respN.total = respN.data.length ∧ respN.limit = req.limit ∧
      respN.skip = req.skip) ∧
    (respR.total = respR.data.length ∧ respR.limit = req.limit ∧
      respR.skip = req.skip) := by
  constructor
  · unfold filterNodesWithCount at hN
    rcases hfn : filterNodes req runN with e | nodes
    · rw [hfn] at hN
      simp at hN
    · rw [hfn] at hN
      simp only [Except.ok.injEq] at hN
      subst hN
      exact ⟨rfl, rfl, rfl⟩
  · unfold filterRelationshipsWithCount at hR
    rcases hfr : filterRelationships req runR with e | rels
    · rw [hfr] at hR
      simp at hR
    · rw [hfr] at hR
      simp only [Except.ok.injEq] at hR
      subst hR
      exact ⟨rfl, rfl, rfl⟩

def nodeW : NodeResponse := { id := 1, labels := ["Person"], properties := [] }

def nodeW2 : NodeResponse := { id := 2, labels := ["Person"], properties := [] }

def relW : RelationshipResponse :=
  { id := 7, type := "KNOWS", source := nodeW, target := nodeW2, properties := [] }

/-- Witness for C10: a store returning two nodes (resp. one relationship)
under a request with `limit = 5`, `skip = 2`. -/
theorem c10_total_is_page_length_witness :
    ((filterNodesWithCount
        { source_nodes := [{ node_types := ["Person"] }], limit := 5, skip := 2 }
        (fun _ _ => Except.ok [nodeW, nodeW2])).toOption.get (by decide) |>.total) = 2 := by
  have h := c10_total_is_page_length
    { source_nodes := [{ node_types := ["Person"] }], limit := 5, skip := 2 }
    (fun _ _ => Except.ok [nodeW, nodeW2]) (fun _ _ => Except.ok [relW])
    _ _ rfl rfl
  exact h.1.1.trans (by decide)

def c5BadRequest : GraphFilterRequest :=
  { source_nodes := [{ node_types := ["A"] }], skip := -1, limit := 100 }

/-- C5 counterexample: a request with `skip = -1` (and otherwise valid
criteria) sails through `_validate_filter_request` — no
`InvalidFilterException` is raised and the query is built and executed — so
the claim that the service validates `skip < 0` is false.  (`skip ≥ 0` is only
enforced upstream, by the pydantic request model.) -/
theorem c5_counterexample :
    c5BadRequest.skip < 0 ∧
    validateFilterRequest c5BadRequest = Option.none ∧
    filterNodes c5BadRequest (fun _ _ => Except.ok []) = Except.ok [] := by
  refine ⟨by decide, by rfl, by rfl⟩

/-- C5 amended: the filter service raises a structured
`InvalidFilterException` exactly when no criteria of any kind are present
(empty source/relationship/target lists and empty-after-strip search text) or
when `limit < 1`, and in those cases the exception is raised before any query
is built or the store is consulted; `skip < 0` is NOT checked by the service
(it is excluded upstream by the request model's `ge=0` bound). -/
theorem c5_validation_behaviour (req : GraphFilterRequest) :
    (validateFilterRequest req = Option.none ↔
      ((req.source_nodes.length > 0 ∨ req.relationships.length > 0 ∨
          req.target_nodes.length > 0 ∨
          hasSearchCriterion req.search_query = true) ∧
        1 ≤ req.limit)) ∧
    (∀ msg ft, validateFilterRequest req = some (msg, ft) →
      ∀ runA runB : StoreRun NodeResponse,
        filterNodes req runA =
          Except.error (ServiceError.invalidFilter msg ft) ∧
        filterNodes req runA = filterNodes req runB) := by
  constructor
  · unfold validateFilterRequest
    by_cases hcrit : (req.source_nodes.length > 0 ∨ req.relationships.length > 0 ∨
        req.target_nodes.length > 0 ∨ (hasSearchCriterion req.search_query : Prop))
    · rw [if_neg (not_not_intro hcrit)]
      by_cases hlim : req.limit < 1
      · rw [if_pos hlim]
        constructor
        · intro h
          cases h
        · intro h
          exact absurd h.2 (by omega)
      · rw [if_neg hlim]
        simp only [true_iff]
        refine ⟨by simpa using hcrit, by omega⟩
    · rw [if_pos hcrit]
      constructor
      · intro h
        cases h
      · intro h
        exact absurd (by simpa using h.1) hcrit
  · intro msg ft hv runA runB
    unfold filterNodes
    rw [hv]
    exact ⟨rfl, rfl⟩

/-- Witness for C5 at a concrete criterion-free request. -/
theorem c5_validation_behaviour_witness :
    filterNodes {} (fun _ _ => Except.ok []) =
      Except.error (ServiceError.invalidFilter
        "At least one filter criterion (Source, Relationship, Target, or Search) must be provided"
        "request") :=
  ((c5_validation_behaviour {}).2 _ _ rfl
    (fun _ _ => Except.ok []) (fun _ _ => Except.ok [])).1

/-! ### Shape of the compiled query heads -/

theorem buildNodeQuery_segs (req : GraphFilterRequest) :
    ∃ rest, (buildNodeQuery req).1 = Seg.lit "MATCH (n)" :: rest := by
  unfold buildNodeQuery
  dsimp only
  repeat' split
  all_goals exact ⟨_, rfl⟩

theorem buildRelationshipQuery_segs (req : GraphFilterRequest) :
    ∃ rest, (buildRelationshipQuery req).1 =
      Seg.lit (if useVariablePath req then
          "MATCH p = (n)-[*1.." ++ toString (globalMaxDepth req) ++ "]-(m)"
        else "MATCH (n)-[r]-(m)") :: rest := by
  unfold buildRelationshipQuery
  dsimp only
  by_cases hv : useVariablePath req
  · simp only [hv]
    repeat' split
    all_goals exact ⟨_, rfl⟩
  · simp only [Bool.not_eq_true] at hv
    simp only [hv]
    repeat' split
    all_goals exact ⟨_, rfl⟩

theorem append_ne_empty_left (a b : String) (h : a ≠ "") : a ++ b ≠ "" := by
  intro hab
  apply h
  have hd := congrArg String.data hab
  rw [String.data_append] at hd
  exact String.ext (List.append_eq_nil.mp hd).1

theorem nodeQueryText_ne_empty (req : GraphFilterRequest) :
    renderSegs (buildNodeQuery req).1 ≠ "" := by
  obtain ⟨rest, h⟩ := buildNodeQuery_segs req
  rw [h]
  exact renderSegs_ne_empty_of_lit _ (by decide) rest

theorem relQueryText_ne_empty (req : GraphFilterRequest) :
    renderSegs (buildRelationshipQuery req).1 ≠ "" := by
  obtain ⟨rest, h⟩ := buildRelationshipQuery_segs req
  rw [h]
  refine renderSegs_ne_empty_of_lit _ ?_ rest
  by_cases hv : useVariablePath req
  · rw [if_pos hv]
    exact append_ne_empty_left _ _ (append_ne_empty_left _ _ (by decide))
  · rw [if_neg hv]
    decide

/-- `query[:500]` plus the truncation suffix, as `QueryExecutionException`
builds it. -/
def truncatedQuery (q : String) : String :=
  q.take 500 ++ (if q.length > 500 then "... (truncated)" else "")

/-- C6: a store failure during execution is wrapped into a
`QueryExecutionException` whose details hold exactly the query text truncated
at 500 characters (suffixed when longer) and the store's error text; the
compiled parameter map is never among the detail values. -/
theorem c6_store_failure_wrapping (req : GraphFilterRequest)
    (hv : validateFilterRequest req = Option.none) (err : String) (he : err ≠ "")
    (runN : StoreRun NodeResponse) (runR : StoreRun RelationshipResponse)
    (hN : runN (renderSegs (buildNodeQuery req).1) (buildNodeQuery req).2 =
      Except.error err)
    (hR : runR (renderSegs (buildRelationshipQuery req).1)
      (buildRelationshipQuery req).2 = Except.error err) :
    (filterNodes req runN = Except.error (ServiceError.queryExecution
      { message := "Failed to execute node query", status_code := 500,
        details :=
          [("query", DetailValue.str (truncatedQuery (renderSegs (buildNodeQuery req).1))),
           ("cypher_error", DetailValue.str err)] })) ∧
    (filterRelationships req runR = Except.error (ServiceError.queryExecution
      { message := "Failed to execute relationship query", status_code := 500,
        details :=
          [("query", DetailValue.str (truncatedQuery (renderSegs (buildRelationshipQuery req).1))),
           ("cypher_error", DetailValue.str err)] })) ∧
    (∀ kv ∈ [("query", DetailValue.str (truncatedQuery (renderSegs (buildNodeQuery req).1))),
             ("cypher_error", DetailValue.str err)],
      ∀ p : Params, kv.2 ≠ DetailValue.paramMap p) := by
  have hqN := nodeQueryText_ne_empty req
  have hqR := relQueryText_ne_empty req
  refine ⟨?_, ?_, ?_⟩
  · unfold filterNodes
    rw [hv]
    dsimp only
    rw [hN]
    unfold mkQueryExecutionException
    dsimp only
    rw [if_neg hqN, if_neg he]
    simp [dictInsert, truncatedQuery]
  · unfold filterRelationships
    rw [hv]
    dsimp only
    rw [hR]
    unfold mkQueryExecutionException
    dsimp only
    rw [if_neg hqR, if_neg he]
    simp [dictInsert, truncatedQuery]
  · intro kv hkv p
    simp only [List.mem_cons, List.not_mem_nil, or_false] at hkv
    rcases hkv with h | h <;> subst h <;> simp

def c6Req : GraphFilterRequest := { source_nodes := [{ node_types := ["A"] }] }

/-- Witness for C6: a store that raises `"boom"` on the compiled node query. -/
theorem c6_store_failure_wrapping_witness :
    filterNodes c6Req (fun _ _ => Except.error "boom") =
      Except.error (ServiceError.queryExecution
        { message := "Failed to execute node query", status_code := 500,
          details :=
            [("query", DetailValue.str (truncatedQuery (renderSegs (buildNodeQuery c6Req).1))),
             ("cypher_error", DetailValue.str "boom")] }) :=
  (c6_store_failure_wrapping c6Req rfl "boom" (by decide)
    (fun _ _ => Except.error "boom") (fun _ _ => Except.error "boom") rfl rfl).1

/-- `use_variable_path = false` exactly when every relationship block has
depth range (1, 1). -/
theorem useVariablePath_eq_false_iff (req : GraphFilterRequest) :
    useVariablePath req = false ↔
      ∀ c ∈ req.relationships, c.min_depth = 1 ∧ c.max_depth = 1 := by
  unfold useVariablePath
  rw [List.any_eq_false]
  constructor
  · intro h c hc
    have := h c hc
    simp only [Bool.or_eq_true, bne_iff_ne, ne_eq, not_or, not_not] at this
    exact this
  · intro h c hc
    have := h c hc
    simp only [Bool.or_eq_true, bne_iff_ne, ne_eq, not_or, not_not]
    exact this

/-- C7: the relationship query is phrased single-hop (`MATCH (n)-[r]-(m)`)
exactly when every relationship block has `min_depth = max_depth = 1`; any
other depth pair switches the whole request to the variable-length-path
phrasing `MATCH p = (n)-[*1..max]-(m)`. -/
theorem c7_single_hop_iff (req : GraphFilterRequest) :
    (useVariablePath req = false ↔
      ∀ c ∈ req.relationships, c.min_depth = 1 ∧ c.max_depth = 1) ∧
    (strStartsWith "MATCH (n)-[r]-(m)"
        (renderSegs (buildRelationshipQuery req).1) = true ↔
      ∀ c ∈ req.relationships, c.min_depth = 1 ∧ c.max_depth = 1) ∧
    (useVariablePath req = true →
      strStartsWith "MATCH p = (n)-[*1.."
        (renderSegs (buildRelationshipQuery req).1) = true) := by
  obtain ⟨rest, hsegs⟩ := buildRelationshipQuery_segs req
  refine ⟨useVariablePath_eq_false_iff req, ?_, ?_⟩
  · rw [hsegs]
    by_cases hv : useVariablePath req
    · rw [if_pos hv] at *
      have hfalse : strStartsWith "MATCH (n)-[r]-(m)"
          (renderSegs (Seg.lit ("MATCH p = (n)-[*1.." ++
            toString (globalMaxDepth req) ++ "]-(m)") :: rest)) = false := by
        unfold strStartsWith
        show isPrefixList _ ((("MATCH p = (n)-[*1.." ++
          toString (globalMaxDepth req) ++ "]-(m)") ++ renderSegs rest)).data = false
        simp only [String.data_append]
        rw [List.append_assoc, List.append_assoc]
        exact isPrefixList_append_false _ _ (by decide) (by decide) _
      rw [hfalse]
      constructor
      · intro h
        cases h
      · intro h
        have := (useVariablePath_eq_false_iff req).mpr h
        rw [this] at hv
        cases hv
    · rw [if_neg hv] at *
      have htrue : strStartsWith "MATCH (n)-[r]-(m)"
          (renderSegs (Seg.lit "MATCH (n)-[r]-(m)" :: rest)) = true := by
        unfold strStartsWith
        show isPrefixList _ (("MATCH (n)-[r]-(m)" ++ renderSegs rest)).data = true
        simp only [String.data_append]
        exact isPrefixList_self_append _ _
      rw [htrue]
      simp only [true_iff]
      exact (useVariablePath_eq_false_iff req).mp (by simpa using hv)
  · intro hv
    rw [hsegs, if_pos hv]
    unfold strStartsWith
    show isPrefixList _ ((("MATCH p = (n)-[*1.." ++
      toString (globalMaxDepth req) ++ "]-(m)") ++ renderSegs rest)).data = true
    simp only [String.data_append]
    rw [List.append_assoc, List.append_assoc]
    exact isPrefixList_self_append _ _

def c7Req : GraphFilterRequest :=
  { relationships := [{ relationship_types := ["KNOWS"], min_depth := 1,
                        max_depth := 1 }] }

/-- Witness for C7 at a concrete all-(1,1) request. -/
theorem c7_single_hop_iff_witness :
    strStartsWith "MATCH (n)-[r]-(m)"
      (renderSegs (buildRelationshipQuery c7Req).1) = true :=
  (c7_single_hop_iff c7Req).2.1.mpr (by decide)

/-! ### Value erasure: the compiled text does not depend on filter values or
search text (they flow only into the parameter map) -/

def erasePF (pf : PropertyFilter) : PropertyFilter := { pf with value := Value.none }

def eraseNodeCriteria (c : NodeCriteria) : NodeCriteria :=
  { c with property_filters := c.property_filters.map erasePF }

def eraseRelCriteria (c : RelationshipCriteria) : RelationshipCriteria :=
  { c with property_filters := c.property_filters.map erasePF }

/-- Replace the search text by a fixed placeholder, preserving only Python
truthiness (presence). -/
def eraseSearch : Option String → Option String
  | Option.none => Option.none
  | some s => some (if s = "" then "" else "#")

def eraseValues (req : GraphFilterRequest) : GraphFilterRequest :=
  { req with
    source_nodes := req.source_nodes.map eraseNodeCriteria,
    target_nodes := req.target_nodes.map eraseNodeCriteria,
    relationships := req.relationships.map eraseRelCriteria,
    search_query := eraseSearch req.search_query }

theorem buildPropertyCondition_text_erase (pf : PropertyFilter) (v p : String) :
    (buildPropertyCondition (erasePF pf) v p).1 = (buildPropertyCondition pf v p).1 := by
  cases pf with
  | mk nm op val => cases op <;> rfl

theorem apply_ite_fst {α β : Type} (P : Prop) [Decidable P] (a b : α × β) :
    (if P then a else b).1 = if P then a.1 else b.1 := by
  by_cases h : P <;> simp [h]

theorem nodeBlockPropConds_erase (c : NodeCriteria) (v p : String) :
    nodeBlockPropConds (eraseNodeCriteria c) v p = nodeBlockPropConds c v p := by
  unfold nodeBlockPropConds eraseNodeCriteria
  dsimp only
  rw [List.map_map]
  apply List.map_congr_left
  intro pf _
  exact buildPropertyCondition_text_erase pf v p

theorem nodeBlockConds_erase (c : NodeCriteria) (v p : String) :
    nodeBlockConds (eraseNodeCriteria c) v p = nodeBlockConds c v p := by
  unfold nodeBlockConds
  rw [show (eraseNodeCriteria c).node_types = c.node_types from rfl,
    show (eraseNodeCriteria c).logical_operator = c.logical_operator from rfl,
    nodeBlockPropConds_erase]

theorem buildNodeBlock_text_erase (c : NodeCriteria) (v : String) (i : Nat)
    (pfx : String) :
    (buildNodeBlock (eraseNodeCriteria c) v i pfx).1 =
      (buildNodeBlock c v i pfx).1 := by
  unfold buildNodeBlock
  dsimp only
  rw [nodeBlockConds_erase, apply_ite_fst, apply_ite_fst]

theorem relBlockPropConds_erase (c : RelationshipCriteria) (v p : String) :
    relBlockPropConds (eraseRelCriteria c) v p = relBlockPropConds c v p := by
  unfold relBlockPropConds eraseRelCriteria
  dsimp only
  rw [List.map_map]
  apply List.map_congr_left
  intro pf _
  exact buildPropertyCondition_text_erase pf v p

theorem relBlockTypeConds_erase (c : RelationshipCriteria) (v p : String) :
    relBlockTypeConds (eraseRelCriteria c) v p = relBlockTypeConds c v p := by
  unfold relBlockTypeConds
  rw [show (eraseRelCriteria c).relationship_types = c.relationship_types from rfl]

theorem buildRelBlockVariable_text_erase (c : RelationshipCriteria)
    (pv : String) (i : Nat) :
    (buildRelBlockVariable (eraseRelCriteria c) pv i).1 =
      (buildRelBlockVariable c pv i).1 := by
  unfold buildRelBlockVariable
  dsimp only
  rw [relBlockTypeConds_erase, relBlockPropConds_erase,
    show (eraseRelCriteria c).min_depth = c.min_depth from rfl,
    show (eraseRelCriteria c).max_depth = c.max_depth from rfl]

theorem relSimpleConds_erase (c : RelationshipCriteria) (p : String) :
    relSimpleConds (eraseRelCriteria c) p = relSimpleConds c p := by
  unfold relSimpleConds
  dsimp only
  rw [relBlockTypeConds_erase, relBlockPropConds_erase,
    show (eraseRelCriteria c).direction = c.direction from rfl]

theorem buildRelBlockSimple_text_erase (c : RelationshipCriteria) (i : Nat) :
    (buildRelBlockSimple (eraseRelCriteria c) i).1 =
      (buildRelBlockSimple c i).1 := by
  unfold buildRelBlockSimple
  dsimp only
  rw [relSimpleConds_erase, apply_ite_fst, apply_ite_fst]

theorem builtBlocks_map_fst {α β : Type} (f : α → β)
    (b1 : β → Nat → List Seg × Params) (b2 : α → Nat → List Seg × Params)
    (h : ∀ c i, (b1 (f c) i).1 = (b2 c i).1) :
    ∀ (l : List α) (i : Nat),
      (builtBlocks b1 (l.map f) i).map Prod.fst =
        (builtBlocks b2 l i).map Prod.fst := by
  intro l
  induction l with
  | nil => intro i; rfl
  | cons c cs ih =>
    intro i
    simp only [List.map_cons, builtBlocks]
    rw [h c i, ih (i + 1)]

theorem map_fst_filter_nonEmpty (l : List (List Seg × Params)) :
    (l.filter fun bp => !bp.1.isEmpty).map Prod.fst =
      (l.map Prod.fst).filter fun b => !b.isEmpty := by
  induction l with
  | nil => rfl
  | cons x xs ih =>
    by_cases h : x.1.isEmpty <;> simp [List.filter, h, ih]

theorem blocksText_map_erase {α β : Type} (f : α → β)
    (b1 : β → Nat → List Seg × Params) (b2 : α → Nat → List Seg × Params)
    (h : ∀ c i, (b1 (f c) i).1 = (b2 c i).1) (l : List α) :
    blocksText b1 (l.map f) = blocksText b2 l := by
  unfold blocksText keptBlocks
  rw [map_fst_filter_nonEmpty, map_fst_filter_nonEmpty,
    builtBlocks_map_fst f b1 b2 h l 0]

theorem searchActive_erase (q : Option String) :
    searchActive (eraseSearch q) = searchActive q := by
  cases q with
  | none => rfl
  | some s =>
    by_cases h : s = "" <;> simp [eraseSearch, searchActive, h]

theorem useVariablePath_erase (req : GraphFilterRequest) :
    useVariablePath (eraseValues req) = useVariablePath req := by
  unfold useVariablePath eraseValues
  dsimp only
  rw [List.any_map]
  rfl

theorem globalMaxDepth_erase (req : GraphFilterRequest) :
    globalMaxDepth (eraseValues req) = globalMaxDepth req := by
  unfold globalMaxDepth eraseValues
  dsimp only
  rw [List.map_map]
  rfl

/-- The compiled node-query text is unchanged when every property value and
the search text are replaced by placeholders: values reach only the parameter
map. -/
theorem buildNodeQuery_text_erase (req : GraphFilterRequest) :
    (buildNodeQuery (eraseValues req)).1 = (buildNodeQuery req).1 := by
  unfold buildNodeQuery
  dsimp only
  rw [show (eraseValues req).source_nodes = req.source_nodes.map eraseNodeCriteria from rfl,
    show (eraseValues req).search_query = eraseSearch req.search_query from rfl,
    show (eraseValues req).skip = req.skip from rfl,
    show (eraseValues req).limit = req.limit from rfl,
    blocksText_map_erase eraseNodeCriteria _ _
      (fun c i => buildNodeBlock_text_erase c "n" i "s") req.source_nodes,
    searchActive_erase]

theorem relBuild_text_erase (req : GraphFilterRequest) (c : RelationshipCriteria)
    (i : Nat) :
    (if useVariablePath req then buildRelBlockVariable (eraseRelCriteria c) "p" i
      else buildRelBlockSimple (eraseRelCriteria c) i).1 =
    (if useVariablePath req then buildRelBlockVariable c "p" i
      else buildRelBlockSimple c i).1 := by
  by_cases hv : useVariablePath req
  · rw [if_pos hv, if_pos hv]
    exact buildRelBlockVariable_text_erase c "p" i
  · rw [if_neg hv, if_neg hv]
    exact buildRelBlockSimple_text_erase c i

/-- Same for the relationship query. -/
theorem buildRelationshipQuery_text_erase (req : GraphFilterRequest) :
    (buildRelationshipQuery (eraseValues req)).1 = (buildRelationshipQuery req).1 := by
  unfold buildRelationshipQuery
  dsimp only
  rw [useVariablePath_erase req, globalMaxDepth_erase req,
    show (eraseValues req).source_nodes = req.source_nodes.map eraseNodeCriteria from rfl,
    show (eraseValues req).target_nodes = req.target_nodes.map eraseNodeCriteria from rfl,
    show (eraseValues req).relationships = req.relationships.map eraseRelCriteria from rfl,
    show (eraseValues req).skip = req.skip from rfl,
    show (eraseValues req).limit = req.limit from rfl]
  rw [blocksText_map_erase eraseNodeCriteria _ _
      (fun c i => buildNodeBlock_text_erase c "n" i "s") req.source_nodes,
    blocksText_map_erase eraseNodeCriteria _ _
      (fun c i => buildNodeBlock_text_erase c "m" i "t") req.target_nodes,
    blocksText_map_erase eraseRelCriteria _ _
      (fun c i => relBuild_text_erase req c i) req.relationships]

/-! ### Parameter references versus parameter-map keys -/

theorem segRefs_append (a b : List Seg) :
    segRefs (a ++ b) = segRefs a ++ segRefs b := by
  simp [segRefs, List.filterMap_append]

theorem segRefs_joinSegs (sep : String) (l : List (List Seg)) :
    segRefs (joinSegs sep l) = (l.map segRefs).flatten := by
  induction l with
  | nil => rfl
  | cons x xs ih =>
    cases xs with
    | nil => simp [joinSegs, segRefs]
    | cons y ys =>
      rw [show joinSegs sep (x :: y :: ys) =
        x ++ [Seg.lit sep] ++ joinSegs sep (y :: ys) from rfl]
      rw [segRefs_append, segRefs_append, ih]
      simp [segRefs]

theorem segRefs_buildPropertyCondition (pf : PropertyFilter) (v p : String) :
    segRefs (buildPropertyCondition pf v p).1 = [condKey p pf] := by
  cases pf with
  | mk nm op val => cases op <;> rfl

theorem keysOf_buildPropertyCondition (pf : PropertyFilter) (v p : String) :
    keysOf (buildPropertyCondition pf v p).2 = [condKey p pf] := by
  cases pf with
  | mk nm op val => cases op <;> rfl

theorem keys_foldl_dictUpdate {α β : Type} (g : β → List (String × α))
    (l : List β) (init : List (String × α)) (a : String)
    (h : a ∈ keysOf init ∨ ∃ x ∈ l, a ∈ keysOf (g x)) :
    a ∈ keysOf (l.foldl (fun acc x => dictUpdate acc (g x)) init) := by
  induction l generalizing init with
  | nil =>
    simpa using h.resolve_right (by simp)
  | cons x xs ih =>
    simp only [List.foldl_cons]
    apply ih
    rcases h with h | ⟨y, hy, hk⟩
    · exact Or.inl (keysOf_dictUpdate_sub init (g x) a (Or.inl h))
    · rcases List.mem_cons.mp hy with h' | hy'
      · exact Or.inl (keysOf_dictUpdate_sub init (g x) a (Or.inr (h' ▸ hk)))
      · exact Or.inr ⟨y, hy', hk⟩

theorem nodup_foldl_dictUpdate {α β : Type} (g : β → List (String × α))
    (l : List β) (init : List (String × α)) (h : (keysOf init).Nodup) :
    (keysOf (l.foldl (fun acc x => dictUpdate acc (g x)) init)).Nodup := by
  induction l generalizing init with
  | nil => simpa using h
  | cons x xs ih =>
    simp only [List.foldl_cons]
    exact ih _ (nodup_keysOf_dictUpdate init (g x) h)

theorem refs_propConds_sub (filters : List PropertyFilter) (v pKey : String)
    (init : Params) (k : String)
    (hk : k ∈ ((filters.map fun pf => (buildPropertyCondition pf v pKey).1).map
      segRefs).flatten) :
    k ∈ keysOf (filters.foldl
      (fun ps pf => dictUpdate ps (buildPropertyCondition pf v pKey).2) init) := by
  rw [List.map_map] at hk
  have hmap : filters.map (segRefs ∘ fun pf => (buildPropertyCondition pf v pKey).1) =
      filters.map fun pf => [condKey pKey pf] := by
    apply List.map_congr_left
    intro pf _
    exact segRefs_buildPropertyCondition pf v pKey
  rw [hmap, List.mem_flatten] at hk
  obtain ⟨l, hl, hkl⟩ := hk
  rw [List.mem_map] at hl
  obtain ⟨pf, hpf, rfl⟩ := hl
  rw [List.mem_singleton] at hkl
  subst hkl
  apply keys_foldl_dictUpdate
  right
  exact ⟨pf, hpf, by rw [keysOf_buildPropertyCondition]; simp⟩

theorem refs_nodeBlockConds_sub (c : NodeCriteria) (v pKey : String) (k : String)
    (hk : k ∈ ((nodeBlockConds c v pKey).map segRefs).flatten) :
    k ∈ keysOf (nodeBlockParams c v pKey) := by
  unfold nodeBlockConds at hk
  rw [List.map_append, List.flatten_append, List.mem_append] at hk
  unfold nodeBlockParams
  rcases hk with hlab | hprop
  · by_cases ht : c.node_types.isEmpty
    · rw [if_pos ht] at hlab
      simp at hlab
    · rw [if_neg ht] at hlab
      have hk' : k = pKey ++ "_labels" := by
        simpa [segRefs] using hlab
      subst hk'
      apply keys_foldl_dictUpdate
      left
      rw [if_neg ht]
      simp [keysOf]
  · by_cases hp : (nodeBlockPropConds c v pKey).isEmpty
    · rw [if_pos hp] at hprop
      simp at hprop
    · rw [if_neg hp] at hprop
      have hk' : k ∈ segRefs (joinSegs
          (" " ++ c.logical_operator.pyValue ++ " ") (nodeBlockPropConds c v pKey)) := by
        simp only [List.map_cons, List.map_nil, List.flatten] at hprop
        rw [segRefs_append, segRefs_append] at hprop
        simpa [segRefs] using hprop
      rw [segRefs_joinSegs] at hk'
      exact refs_propConds_sub c.property_filters v pKey _ k hk'

theorem buildNodeBlock_refs_sub_keys (c : NodeCriteria) (v : String) (i : Nat)
    (pfx : String) :
    ∀ k ∈ segRefs (buildNodeBlock c v i pfx).1,
      k ∈ keysOf (buildNodeBlock c v i pfx).2 := by
  intro k hk
  unfold buildNodeBlock at *
  dsimp only at *
  by_cases hc : (nodeBlockConds c v (pfx ++ Nat.repr i)).isEmpty
  · rw [if_pos hc] at hk
    simp [segRefs] at hk
  · rw [if_neg hc] at hk ⊢
    dsimp only at hk ⊢
    rw [segRefs_append, segRefs_append, segRefs_joinSegs] at hk
    have hk' : k ∈ ((nodeBlockConds c v (pfx ++ Nat.repr i)).map segRefs).flatten := by
      simpa [segRefs] using hk
    exact refs_nodeBlockConds_sub c v _ k hk'

theorem refs_relConds_sub (c : RelationshipCriteria) (pKey : String) (k : String)
    (hk : k ∈ ((relBlockTypeConds c "r" pKey ++ relBlockPropConds c "r" pKey).map
      segRefs).flatten) :
    k ∈ keysOf (relBlockParams c "r" pKey) := by
  rw [List.map_append, List.flatten_append, List.mem_append] at hk
  unfold relBlockParams
  rcases hk with htype | hprop
  · unfold relBlockTypeConds at htype
    by_cases ht : c.relationship_types.isEmpty
    · rw [if_pos ht] at htype
      simp at htype
    · rw [if_neg ht] at htype
      have hk' : k = pKey ++ "_types" := by
        simpa [segRefs] using htype
      subst hk'
      apply keys_foldl_dictUpdate
      left
      rw [if_neg ht]
      simp [keysOf]
  · exact refs_propConds_sub c.property_filters "r" pKey _ k
      (by simpa [relBlockPropConds] using hprop)

theorem buildRelBlockVariable_refs_sub_keys (c : RelationshipCriteria)
    (pv : String) (i : Nat) :
    ∀ k ∈ segRefs (buildRelBlockVariable c pv i).1,
      k ∈ keysOf (buildRelBlockVariable c pv i).2 := by
  intro k hk
  unfold buildRelBlockVariable at *
  dsimp only at *
  rw [segRefs_append, segRefs_append, segRefs_append, segRefs_append,
    segRefs_append] at hk
  by_cases hc : (relBlockTypeConds c "r" ("rel" ++ Nat.repr i) ++
      relBlockPropConds c "r" ("rel" ++ Nat.repr i)).isEmpty
  · rw [if_pos hc] at hk
    simp [segRefs] at hk
  · rw [if_neg hc] at hk
    have hk' : k ∈ ((relBlockTypeConds c "r" ("rel" ++ Nat.repr i) ++
        relBlockPropConds c "r" ("rel" ++ Nat.repr i)).map segRefs).flatten := by
      rw [← segRefs_joinSegs " AND "]
      simpa [segRefs] using hk
    exact refs_relConds_sub c _ k hk'

theorem buildRelBlockSimple_refs_sub_keys (c : RelationshipCriteria) (i : Nat) :
    ∀ k ∈ segRefs (buildRelBlockSimple c i).1,
      k ∈ keysOf (buildRelBlockSimple c i).2 := by
  intro k hk
  unfold buildRelBlockSimple at *
  dsimp only at *
  by_cases hc : (relSimpleConds c ("rel" ++ Nat.repr i)).isEmpty
  · rw [if_pos hc] at hk
    simp [segRefs] at hk
  · rw [if_neg hc] at hk ⊢
    dsimp only at hk ⊢
    rw [segRefs_append, segRefs_append, segRefs_joinSegs] at hk
    have hk' : k ∈ ((relSimpleConds c ("rel" ++ Nat.repr i)).map segRefs).flatten := by
      simpa [segRefs] using hk
    have hsub : k ∈ ((relBlockTypeConds c "r" ("rel" ++ Nat.repr i) ++
        relBlockPropConds c "r" ("rel" ++ Nat.repr i)).map segRefs).flatten := by
      unfold relSimpleConds at hk'
      dsimp only at hk'
      split at hk'
      · rw [List.map_append, List.flatten_append, List.mem_append] at hk'
        rcases hk' with h | h
        · exact h
        · simp [segRefs] at h
      · split at hk'
        · rw [List.map_append, List.flatten_append, List.mem_append] at hk'
          rcases hk' with h | h
          · exact h
          · simp [segRefs] at h
        · exact hk'
    exact refs_relConds_sub c _ k hsub

theorem mem_keptBlocks {α : Type} (build : α → Nat → List Seg × Params)
    (l : List α) (bp : List Seg × Params) (h : bp ∈ keptBlocks build l) :
    ∃ c j, bp = build c j := by
  unfold keptBlocks at h
  have h' := (List.mem_filter.mp h).1
  clear h
  suffices H : ∀ (l' : List α) (i : Nat), bp ∈ builtBlocks build l' i →
      ∃ c j, bp = build c j from H l 0 h'
  intro l'
  induction l' with
  | nil =>
    intro i h
    cases h
  | cons c cs ih =>
    intro i h
    rcases List.mem_cons.mp h with h | h
    · exact ⟨c, i, h⟩
    · exact ih (i + 1) h

theorem keys_blocksParams_sub {α : Type} (build : α → Nat → List Seg × Params)
    (l : List α) (init : Params) (k : String)
    (h : k ∈ keysOf init ∨ ∃ bp ∈ keptBlocks build l, k ∈ keysOf bp.2) :
    k ∈ keysOf (blocksParams build l init) :=
  keys_foldl_dictUpdate Prod.snd (keptBlocks build l) init k h

theorem nodup_keys_blocksParams {α : Type} (build : α → Nat → List Seg × Params)
    (l : List α) (init : Params) (h : (keysOf init).Nodup) :
    (keysOf (blocksParams build l init)).Nodup :=
  nodup_foldl_dictUpdate Prod.snd (keptBlocks build l) init h

/-- Any parameter reference inside one of a role-group's block fragments is a
key of the group's accumulated parameter map. -/
theorem refs_group_sub {α : Type} (build : α → Nat → List Seg × Params)
    (l : List α) (init : Params) (k : String)
    (hb : ∀ (c : α) (j : Nat), ∀ k' ∈ segRefs (build c j).1,
      k' ∈ keysOf (build c j).2)
    (hk : k ∈ ((blocksText build l).map segRefs).flatten) :
    k ∈ keysOf (blocksParams build l init) := by
  rw [List.mem_flatten] at hk
  obtain ⟨refs, hrefs, hkr⟩ := hk
  rw [List.mem_map] at hrefs
  obtain ⟨b, hbmem, rfl⟩ := hrefs
  unfold blocksText at hbmem
  rw [List.mem_map] at hbmem
  obtain ⟨bp, hbp, rfl⟩ := hbmem
  obtain ⟨c, j, rfl⟩ := mem_keptBlocks build l bp hbp
  apply keys_blocksParams_sub
  right
  exact ⟨build c j, hbp, hb c j k hkr⟩

theorem relBuild_refs_sub (vm : Bool) (c : RelationshipCriteria) (j : Nat) :
    ∀ k ∈ segRefs (if vm then buildRelBlockVariable c "p" j
      else buildRelBlockSimple c j).1,
      k ∈ keysOf (if vm then buildRelBlockVariable c "p" j
        else buildRelBlockSimple c j).2 := by
  cases vm
  · simpa using buildRelBlockSimple_refs_sub_keys c j
  · simpa using buildRelBlockVariable_refs_sub_keys c "p" j

theorem isEmpty_append_singleton {γ : Type} (a : List γ) (x : γ) :
    (a ++ [x]).isEmpty = false := by
  cases a <;> rfl

theorem buildNodeQuery_refs_sub (req : GraphFilterRequest) :
    ∀ k ∈ segRefs (buildNodeQuery req).1, k ∈ keysOf (buildNodeQuery req).2 := by
  intro k hk
  unfold buildNodeQuery at hk ⊢
  dsimp only at hk ⊢
  by_cases hs : searchActive req.search_query
  · rw [if_pos hs] at hk ⊢
    simp only [isEmpty_append_singleton, Bool.false_eq_true, if_false] at hk
    simp only [segRefs_append, segRefs_joinSegs] at hk
    rw [List.map_append, List.flatten_append] at hk
    have hk' : k ∈ ((if (blocksText (fun c i => buildNodeBlock c "n" i "s")
          req.source_nodes).isEmpty then ([] : List (List Seg)) else
          [[Seg.lit "("] ++ joinSegs " OR "
            (blocksText (fun c i => buildNodeBlock c "n" i "s") req.source_nodes) ++
            [Seg.lit ")"]]).map segRefs).flatten ∨ k = "g_search" := by
      simp only [segRefs, List.filterMap_cons, List.filterMap_nil,
        List.mem_append, List.not_mem_nil, or_false, false_or,
        List.map_cons, List.map_nil, List.flatten_cons, List.flatten_nil,
        List.append_nil, List.mem_cons] at hk
      rcases hk with h | h | h
      · exact Or.inl h
      · exact Or.inr h
      · exact Or.inr h
    rcases hk' with h | h
    · by_cases hsb : (blocksText (fun c i => buildNodeBlock c "n" i "s")
          req.source_nodes).isEmpty
      · rw [if_pos hsb] at h
        simp at h
      · rw [if_neg hsb] at h
        have h' : k ∈ ((blocksText (fun c i => buildNodeBlock c "n" i "s")
            req.source_nodes).map segRefs).flatten := by
          simp only [List.map_cons, List.map_nil, List.flatten_cons,
            List.flatten_nil, List.append_nil, segRefs_append,
            segRefs_joinSegs] at h
          simpa [segRefs] using h
        apply mem_keysOf_dictInsert
        left
        exact refs_group_sub _ _ _ k
          (fun c j => buildNodeBlock_refs_sub_keys c "n" j "s") h'
    · subst h
      apply mem_keysOf_dictInsert
      right
      rfl
  · rw [if_neg hs] at hk ⊢
    by_cases hsb : (blocksText (fun c i => buildNodeBlock c "n" i "s")
        req.source_nodes).isEmpty
    · rw [if_pos hsb] at hk
      simp only [List.isEmpty_nil, if_true] at hk
      simp [segRefs] at hk
    · rw [if_neg hsb] at hk
      simp only [isEmpty_append_singleton, Bool.false_eq_true, if_false,
        List.isEmpty_cons] at hk
      simp only [segRefs_append, segRefs_joinSegs, List.map_cons, List.map_nil,
        List.flatten_cons, List.flatten_nil, List.append_nil] at hk
      have h' : k ∈ ((blocksText (fun c i => buildNodeBlock c "n" i "s")
          req.source_nodes).map segRefs).flatten := by
        simpa [segRefs, segRefs_append, segRefs_joinSegs] using hk
      exact refs_group_sub _ _ _ k
        (fun c j => buildNodeBlock_refs_sub_keys c "n" j "s") h'

theorem refs_optional_group {α : Type} (build : α → Nat → List Seg × Params)
    (l : List α) (k : String)
    (hb : ∀ (c : α) (j : Nat), ∀ k' ∈ segRefs (build c j).1,
      k' ∈ keysOf (build c j).2)
    (h : k ∈ ((if (blocksText build l).isEmpty then ([] : List (List Seg)) else
      [[Seg.lit "("] ++ joinSegs " OR " (blocksText build l) ++
        [Seg.lit ")"]]).map segRefs).flatten)
    (init : Params) : k ∈ keysOf (blocksParams build l init) := by
  by_cases hsb : (blocksText build l).isEmpty
  · rw [if_pos hsb] at h
    simp at h
  · rw [if_neg hsb] at h
    have h' : k ∈ ((blocksText build l).map segRefs).flatten := by
      simp only [List.map_cons, List.map_nil, List.flatten_cons,
        List.flatten_nil, List.append_nil, segRefs_append, segRefs_joinSegs] at h
      simpa [segRefs] using h
    exact refs_group_sub _ _ _ k hb h'

theorem keys_blocksParams_mono {α : Type} (build : α → Nat → List Seg × Params)
    (l : List α) (init : Params) (k : String) (h : k ∈ keysOf init) :
    k ∈ keysOf (blocksParams build l init) :=
  keys_blocksParams_sub build l init k (Or.inl h)

theorem buildRelationshipQuery_refs_sub (req : GraphFilterRequest) :
    ∀ k ∈ segRefs (buildRelationshipQuery req).1,
      k ∈ keysOf (buildRelationshipQuery req).2 := by
  intro k hk
  unfold buildRelationshipQuery at hk ⊢
  dsimp only at hk ⊢
  by_cases hw : ((if (blocksText (fun c i => buildNodeBlock c "n" i "s")
        req.source_nodes).isEmpty then ([] : List (List Seg)) else
        [[Seg.lit "("] ++ joinSegs " OR "
          (blocksText (fun c i => buildNodeBlock c "n" i "s") req.source_nodes) ++
          [Seg.lit ")"]]) ++
      (if (blocksText (fun c i => buildNodeBlock c "m" i "t")
        req.target_nodes).isEmpty then ([] : List (List Seg)) else
        [[Seg.lit "("] ++ joinSegs " OR "
          (blocksText (fun c i => buildNodeBlock c "m" i "t") req.target_nodes) ++
          [Seg.lit ")"]]) ++
      (if (blocksText (fun c i => if useVariablePath req then
            buildRelBlockVariable c "p" i else buildRelBlockSimple c i)
        req.relationships).isEmpty then ([] : List (List Seg)) else
        [[Seg.lit "("] ++ joinSegs " OR "
          (blocksText (fun c i => if useVariablePath req then
            buildRelBlockVariable c "p" i else buildRelBlockSimple c i)
            req.relationships) ++
          [Seg.lit ")"]])).isEmpty
  · rw [if_pos hw] at hk
    by_cases hv : useVariablePath req
    · rw [if_pos hv, if_pos hv] at hk
      simp [segRefs] at hk
    · rw [if_neg hv, if_neg hv] at hk
      simp [segRefs] at hk
  · rw [if_neg hw] at hk
    have hk' : k ∈ (((if (blocksText (fun c i => buildNodeBlock c "n" i "s")
          req.source_nodes).isEmpty then ([] : List (List Seg)) else
          [[Seg.lit "("] ++ joinSegs " OR "
            (blocksText (fun c i => buildNodeBlock c "n" i "s") req.source_nodes) ++
            [Seg.lit ")"]]) ++
        (if (blocksText (fun c i => buildNodeBlock c "m" i "t")
          req.target_nodes).isEmpty then ([] : List (List Seg)) else
          [[Seg.lit "("] ++ joinSegs " OR "
            (blocksText (fun c i => buildNodeBlock c "m" i "t") req.target_nodes) ++
            [Seg.lit ")"]]) ++
        (if (blocksText (fun c i => if useVariablePath req then
              buildRelBlockVariable c "p" i else buildRelBlockSimple c i)
          req.relationships).isEmpty then ([] : List (List Seg)) else
          [[Seg.lit "("] ++ joinSegs " OR "
            (blocksText (fun c i => if useVariablePath req then
              buildRelBlockVariable c "p" i else buildRelBlockSimple c i)
              req.relationships) ++
            [Seg.lit ")"]])).map segRefs).flatten := by
      by_cases hv : useVariablePath req
      · rw [if_pos hv, if_pos hv] at hk
        rw [segRefs_append, segRefs_append, segRefs_append, segRefs_append,
          segRefs_joinSegs] at hk
        simpa [segRefs] using hk
      · rw [if_neg hv, if_neg hv] at hk
        rw [segRefs_append, segRefs_append, segRefs_append,
          segRefs_joinSegs] at hk
        simpa [segRefs] using hk
    rw [List.map_append, List.map_append, List.flatten_append,
      List.flatten_append, List.mem_append, List.mem_append] at hk'
    rcases hk' with (hsrc | htgt) | hrel
    · apply keys_blocksParams_mono
      apply keys_blocksParams_mono
      exact refs_optional_group _ _ k
        (fun c j => buildNodeBlock_refs_sub_keys c "n" j "s") hsrc []
    · apply keys_blocksParams_mono
      exact refs_optional_group _ _ k
        (fun c j => buildNodeBlock_refs_sub_keys c "m" j "t") htgt _
    · exact refs_optional_group _ _ k
        (fun c j => relBuild_refs_sub (useVariablePath req) c j) hrel _

theorem buildNodeQuery_keys_nodup (req : GraphFilterRequest) :
    (keysOf (buildNodeQuery req).2).Nodup := by
  unfold buildNodeQuery
  dsimp only
  by_cases hs : searchActive req.search_query
  · rw [if_pos hs]
    exact nodup_keysOf_dictInsert _ _ _
      (nodup_keys_blocksParams _ _ _ (by simp [keysOf]))
  · rw [if_neg hs]
    exact nodup_keys_blocksParams _ _ _ (by simp [keysOf])

theorem buildRelationshipQuery_keys_nodup (req : GraphFilterRequest) :
    (keysOf (buildRelationshipQuery req).2).Nodup := by
  unfold buildRelationshipQuery
  dsimp only
  exact nodup_keys_blocksParams _ _ _
    (nodup_keys_blocksParams _ _ _
      (nodup_keys_blocksParams _ _ _ (by simp [keysOf])))

def c1ReqA : GraphFilterRequest :=
  { source_nodes := [{ node_types := ["A"] }], skip := 7, limit := 3 }

def c1ReqB : GraphFilterRequest :=
  { source_nodes := [{ node_types := ["A"] }], skip := 8, limit := 3 }

/-- C1 counterexample: the request's `skip` and `limit` values ARE embedded as
literals in the compiled text (`f"\nSKIP {req.skip} LIMIT {req.limit}"`): the
text of a request with `skip = 7, limit = 3` contains the literal
`SKIP 7 LIMIT 3`, and changing only `skip` to 8 changes the compiled text —
impossible if those values were parameter-bound as the claim requires. -/
theorem c1_counterexample :
    c1ReqB = { c1ReqA with skip := 8 } ∧
    strHasInfix ("SKIP " ++ toString c1ReqA.skip ++ " LIMIT " ++
        toString c1ReqA.limit)
      (renderSegs (buildNodeQuery c1ReqA).1) = true ∧
    renderSegs (buildNodeQuery c1ReqA).1 ≠
      renderSegs (buildNodeQuery c1ReqB).1 := by
  refine ⟨by decide, by decide, by decide⟩

/-- C1 amended: every parameter name referenced in the compiled text of either
query appears exactly once as a key of its parameter map, and property-filter
values and the search text are never embedded in the text (the text is
invariant under replacing them by placeholders); `skip`, `limit` and the
variable-mode depth bounds, however, are embedded literally (see the
counterexample). -/
theorem c1_params_referenced_once_values_bound (req : GraphFilterRequest) :
    (∀ k ∈ segRefs (buildNodeQuery req).1,
      (keysOf (buildNodeQuery req).2).count k = 1) ∧
    (∀ k ∈ segRefs (buildRelationshipQuery req).1,
      (keysOf (buildRelationshipQuery req).2).count k = 1) ∧
    (buildNodeQuery (eraseValues req)).1 = (buildNodeQuery req).1 ∧
    (buildRelationshipQuery (eraseValues req)).1 = (buildRelationshipQuery req).1 := by
  refine ⟨?_, ?_, buildNodeQuery_text_erase req, buildRelationshipQuery_text_erase req⟩
  · intro k hk
    exact List.count_eq_one_of_mem (buildNodeQuery_keys_nodup req)
      (buildNodeQuery_refs_sub req k hk)
  · intro k hk
    exact List.count_eq_one_of_mem (buildRelationshipQuery_keys_nodup req)
      (buildRelationshipQuery_refs_sub req k hk)

/-- Witness for C1 at a concrete request and parameter name. -/
theorem c1_params_referenced_once_witness :
    (keysOf (buildNodeQuery c1ReqA).2).count "s0_labels" = 1 :=
  (c1_params_referenced_once_values_bound c1ReqA).1 "s0_labels" (by decide)

/-! ### Contiguous-substring reasoning over rendered segments -/

/-- `p` occurs contiguously in `s`, witnessed at the character level. -/
def dataInfix (p s : String) : Prop :=
  ∃ pre post : List Char, s.data = pre ++ p.data ++ post

theorem strHasInfix_of_dataInfix {p s : String} (h : dataInfix p s) :
    strHasInfix p s = true := by
  obtain ⟨pre, post, h⟩ := h
  unfold strHasInfix
  rw [h]
  exact isInfixList_of_append pre p.data post

theorem dataInfix_trans {p q s : String} (h1 : dataInfix p q)
    (h2 : dataInfix q s) : dataInfix p s := by
  obtain ⟨a, b, h1⟩ := h1
  obtain ⟨c, d, h2⟩ := h2
  exact ⟨c ++ a, b ++ d, by rw [h2, h1]; simp [List.append_assoc]⟩

theorem dataInfix_congr {p p' s : String} (h : p.data = p'.data)
    (h' : dataInfix p' s) : dataInfix p s := by
  obtain ⟨a, b, h'⟩ := h'
  exact ⟨a, b, by rw [h', h]⟩

theorem data_renderSegs_append (a b : List Seg) :
    (renderSegs (a ++ b)).data = (renderSegs a).data ++ (renderSegs b).data := by
  rw [renderSegs_append, String.data_append]

theorem dataInfix_renderSegs_sub (mid a b : List Seg) :
    dataInfix (renderSegs mid) (renderSegs (a ++ mid ++ b)) :=
  ⟨(renderSegs a).data, (renderSegs b).data, by
    rw [data_renderSegs_append, data_renderSegs_append]⟩

theorem dataInfix_append_right (p : String) (a b : List Seg)
    (h : dataInfix p (renderSegs a)) : dataInfix p (renderSegs (a ++ b)) := by
  obtain ⟨pre, post, hp⟩ := h
  exact ⟨pre, post ++ (renderSegs b).data, by
    rw [data_renderSegs_append, hp]; simp [List.append_assoc]⟩

theorem dataInfix_append_left (p : String) (a b : List Seg)
    (h : dataInfix p (renderSegs b)) : dataInfix p (renderSegs (a ++ b)) := by
  obtain ⟨pre, post, hp⟩ := h
  exact ⟨(renderSegs a).data ++ pre, post, by
    rw [data_renderSegs_append, hp]; simp [List.append_assoc]⟩

theorem dataInfix_joinSegs (sep : String) (l : List (List Seg)) (b : List Seg)
    (hb : b ∈ l) : dataInfix (renderSegs b) (renderSegs (joinSegs sep l)) := by
  induction l with
  | nil => cases hb
  | cons x xs ih =>
    cases xs with
    | nil =>
      rw [List.mem_singleton] at hb
      subst hb
      exact ⟨[], [], by simp [joinSegs]⟩
    | cons y ys =>
      rcases List.mem_cons.mp hb with h | h
      · subst h
        rw [show joinSegs sep (b :: y :: ys) =
          (b ++ [Seg.lit sep]) ++ joinSegs sep (y :: ys) from rfl]
        exact dataInfix_append_right _ _ _
          (dataInfix_append_right _ _ _ ⟨[], [], by simp⟩)
      · rw [show joinSegs sep (x :: y :: ys) =
          (x ++ [Seg.lit sep]) ++ joinSegs sep (y :: ys) from rfl]
        exact dataInfix_append_left _ _ _ (ih h)

theorem mem_builtBlocks_of_mem {α : Type} (build : α → Nat → List Seg × Params)
    (l : List α) (c : α) (hc : c ∈ l) :
    ∀ i, ∃ j, build c j ∈ builtBlocks build l i := by
  induction l with
  | nil => cases hc
  | cons x xs ih =>
    intro i
    rcases List.mem_cons.mp hc with h | h
    · subst h
      exact ⟨i, List.mem_cons_self _ _⟩
    · obtain ⟨j, hj⟩ := ih h (i + 1)
      exact ⟨j, List.mem_cons_of_mem _ hj⟩

theorem mem_blocksText_of_mem {α : Type} (build : α → Nat → List Seg × Params)
    (l : List α) (c : α) (hc : c ∈ l)
    (hne : ∀ j, (build c j).1.isEmpty = false) :
    ∃ j, (build c j).1 ∈ blocksText build l := by
  obtain ⟨j, hj⟩ := mem_builtBlocks_of_mem build l c hc 0
  refine ⟨j, ?_⟩
  unfold blocksText keptBlocks
  exact List.mem_map_of_mem _ (List.mem_filter.mpr ⟨hj, by rw [hne j]; rfl⟩)

theorem buildRelBlockVariable_fst_nonempty (c : RelationshipCriteria)
    (pv : String) (j : Nat) :
    (buildRelBlockVariable c pv j).1.isEmpty = false := rfl

theorem dataInfix_self (s : String) : dataInfix s s := ⟨[], [], by simp⟩

/-- Each variable-mode block's fragment carries the assertion that the path
length lies within that block's own depth bounds. -/
theorem lengthAssert_dataInfix (c : RelationshipCriteria) (j : Nat) :
    dataInfix ("(length(p) >= " ++ toString c.min_depth ++
        " AND length(p) <= " ++ toString c.max_depth ++ ")")
      (renderSegs (buildRelBlockVariable c "p" j).1) := by
  unfold buildRelBlockVariable
  dsimp only
  refine dataInfix_congr ?_ (dataInfix_renderSegs_sub
    [Seg.lit ("(length(" ++ "p" ++ ") >= " ++ toString c.min_depth ++
      " AND length(" ++ "p" ++ ") <= " ++ toString c.max_depth ++ ")")]
    [Seg.lit "("] _)
  simp [renderSegs, Seg.render, String.data_append, List.append_assoc]

def c3Req : GraphFilterRequest :=
  { relationships := [{ min_depth := 2, max_depth := 3 }] }

/-- C3 counterexample: for a request whose single relationship block has
depth range [2, 3], the claim requires the path pattern to be bounded by the
envelope `[global_min, global_max] = [2, 3]`, but the emitted pattern is
`[*1..3]` — the code computes `min_d` and then hardcodes 1 as the MATCH lower
bound (see the source comment), so the claimed head is not a prefix of the
compiled text. -/
theorem c3_counterexample :
    useVariablePath c3Req = true ∧
    globalMinDepth c3Req = 2 ∧
    globalMaxDepth c3Req = 3 ∧
    strStartsWith ("MATCH p = (n)-[*" ++ toString (globalMinDepth c3Req) ++
        ".." ++ toString (globalMaxDepth c3Req) ++ "]-(m)")
      (renderSegs (buildRelationshipQuery c3Req).1) = false ∧
    strStartsWith "MATCH p = (n)-[*1..3]-(m)"
      (renderSegs (buildRelationshipQuery c3Req).1) = true := by
  refine ⟨by decide, by decide, by decide, by decide, by decide⟩

/-- C3 amended: in variable-length mode the match pattern is bounded by
`[1, global_max]` (the lower bound is hardcoded to 1; `global_min` is computed
but unused), and each block's WHERE predicate asserts that the realized path
length lies within that block's own `[min_depth, max_depth]`. -/
theorem c3_variable_path_envelope (req : GraphFilterRequest)
    (hv : useVariablePath req = true) :
    strStartsWith ("MATCH p = (n)-[*1.." ++ toString (globalMaxDepth req) ++ "]-(m)")
      (renderSegs (buildRelationshipQuery req).1) = true ∧
    ∀ c ∈ req.relationships,
      strHasInfix ("(length(p) >= " ++ toString c.min_depth ++
          " AND length(p) <= " ++ toString c.max_depth ++ ")")
        (renderSegs (buildRelationshipQuery req).1) = true := by
  constructor
  · obtain ⟨rest, hsegs⟩ := buildRelationshipQuery_segs req
    rw [hsegs, if_pos hv]
    unfold strStartsWith
    show isPrefixList
      ("MATCH p = (n)-[*1.." ++ toString (globalMaxDepth req) ++ "]-(m)").data
      (("MATCH p = (n)-[*1.." ++ toString (globalMaxDepth req) ++ "]-(m)" ++
        renderSegs rest)).data = true
    rw [String.data_append]
    exact isPrefixList_self_append _ _
  · intro c hc
    apply strHasInfix_of_dataInfix
    unfold buildRelationshipQuery
    dsimp only
    simp only [hv, if_true]
    obtain ⟨j, hjmem⟩ := mem_blocksText_of_mem
      (fun c i => buildRelBlockVariable c "p" i) req.relationships c hc
      (fun j => buildRelBlockVariable_fst_nonempty c "p" j)
    have hrelne : (blocksText (fun c i => buildRelBlockVariable c "p" i)
        req.relationships).isEmpty = false := by
      cases hbt : blocksText (fun c i => buildRelBlockVariable c "p" i)
          req.relationships with
      | nil =>
        rw [hbt] at hjmem
        cases hjmem
      | cons x xs => rfl
    simp only [hrelne, Bool.false_eq_true, if_false, isEmpty_append_singleton]
    have hgmem : ([Seg.lit "("] ++ joinSegs " OR "
        (blocksText (fun c i => buildRelBlockVariable c "p" i) req.relationships) ++
        [Seg.lit ")"]) ∈
        (((if (blocksText (fun c i => buildNodeBlock c "n" i "s")
            req.source_nodes).isEmpty then ([] : List (List Seg)) else
            [[Seg.lit "("] ++ joinSegs " OR "
              (blocksText (fun c i => buildNodeBlock c "n" i "s") req.source_nodes) ++
              [Seg.lit ")"]]) ++
          (if (blocksText (fun c i => buildNodeBlock c "m" i "t")
            req.target_nodes).isEmpty then ([] : List (List Seg)) else
            [[Seg.lit "("] ++ joinSegs " OR "
              (blocksText (fun c i => buildNodeBlock c "m" i "t") req.target_nodes) ++
              [Seg.lit ")"]])) ++
          [[Seg.lit "("] ++ joinSegs " OR "
            (blocksText (fun c i => buildRelBlockVariable c "p" i)
              req.relationships) ++ [Seg.lit ")"]]) :=
      List.mem_append_right _ (List.mem_singleton_self _)
    refine dataInfix_trans (lengthAssert_dataInfix c j) ?_
    refine dataInfix_trans (dataInfix_joinSegs " OR " _ _ hjmem) ?_
    refine dataInfix_trans (dataInfix_renderSegs_sub _ [Seg.lit "("] [Seg.lit ")"]) ?_
    refine dataInfix_trans (dataInfix_joinSegs " AND " _ _ hgmem) ?_
    refine dataInfix_append_right _ _ _ ?_
    refine dataInfix_append_right _ _ _ ?_
    exact dataInfix_append_left _ _ _ (dataInfix_self _)

/-- Witness for C3 at the concrete request `reqW8` (depth range [1, 3]). -/
theorem c3_variable_path_envelope_witness :
    useVariablePath reqW8 = true ∧
    strHasInfix ("(length(p) >= " ++ toString (1 : Int) ++
        " AND length(p) <= " ++ toString (3 : Int) ++ ")")
      (renderSegs (buildRelationshipQuery reqW8).1) = true :=
  ⟨by decide,
   (c3_variable_path_envelope reqW8 (by decide)).2
     ⟨["KNOWS"], [], some .OUTGOING, 1, 3⟩ (by decide)⟩

/-- Two source blocks with only a type each: scenario C of the spec. -/
def c9TwoBlocks (t1 t2 : String) : GraphFilterRequest :=
  { source_nodes := [{ node_types := [t1] }, { node_types := [t2] }] }

/-- One source block and one (default-depth) relationship block, no targets. -/
def c9MixedReq (t r : String) : GraphFilterRequest :=
  { source_nodes := [{ node_types := [t] }],
    relationships := [{ relationship_types := [r] }] }

set_option maxRecDepth 10000 in
/-- C9: blocks of the same role are OR-combined, the role groups are ANDed,
and an empty group is omitted entirely.  Concretely: two source blocks
compile to `(block1 OR block2)` (never AND); a request with one source and one
relationship block but no target blocks compiles with the two groups ANDed and
no target constraint; and in general any request whose source list is exactly
two non-degenerate blocks has `fragment1 OR fragment2` contiguously in its
compiled text. -/
theorem c9_or_within_role_and_between_roles :
    (∀ t1 t2 : String,
      renderSegs (buildNodeQuery (c9TwoBlocks t1 t2)).1 =
        "MATCH (n)\nWHERE ((any(l IN labels(n) WHERE l IN $s0_labels)) OR (any(l IN labels(n) WHERE l IN $s1_labels)))\nRETURN n, labels(n) as node_labels, id(n) as node_id\nSKIP 0 LIMIT 100" ∧
      (buildNodeQuery (c9TwoBlocks t1 t2)).2 =
        [("s0_labels", Value.strList [t1]), ("s1_labels", Value.strList [t2])]) ∧
    (∀ t r : String,
      renderSegs (buildRelationshipQuery (c9MixedReq t r)).1 =
        "MATCH (n)-[r]-(m)\nWHERE ((any(l IN labels(n) WHERE l IN $s0_labels))) AND ((type(r) IN $rel0_types AND startNode(r) = n))\nRETURN n, r, m, type(r) as rel_type, id(r) as rel_id\nSKIP 0 LIMIT 100") ∧
    (∀ c1 c2 : NodeCriteria,
      (buildNodeBlock c1 "n" 0 "s").1.isEmpty = false →
      (buildNodeBlock c2 "n" 1 "s").1.isEmpty = false →
      strHasInfix (renderSegs (buildNodeBlock c1 "n" 0 "s").1 ++ " OR " ++
          renderSegs (buildNodeBlock c2 "n" 1 "s").1)
        (renderSegs (buildNodeQuery { source_nodes := [c1, c2] }).1) = true) := by
  refine ⟨fun t1 t2 => ⟨rfl, rfl⟩, fun t r => rfl, ?_⟩
  intro c1 c2 h1 h2
  apply strHasInfix_of_dataInfix
  have hbt : blocksText (fun c i => buildNodeBlock c "n" i "s") [c1, c2] =
      [(buildNodeBlock c1 "n" 0 "s").1, (buildNodeBlock c2 "n" 1 "s").1] := by
    unfold blocksText keptBlocks builtBlocks builtBlocks
    simp [List.filter, h1, h2]
  unfold buildNodeQuery
  dsimp only
  rw [hbt]
  simp only [searchActive, Bool.false_eq_true, if_false, List.isEmpty_cons,
    isEmpty_append_singleton]
  refine dataInfix_congr ?_ (dataInfix_trans
    (dataInfix_renderSegs_sub ((buildNodeBlock c1 "n" 0 "s").1 ++
      [Seg.lit " OR "] ++ (buildNodeBlock c2 "n" 1 "s").1)
      [Seg.lit "("] [Seg.lit ")"]) ?_)
  · simp [data_renderSegs_append, renderSegs, Seg.render, String.data_append,
      List.append_assoc]
  · refine dataInfix_append_right _ _ _ ?_
    refine dataInfix_append_right _ _ _ ?_
    exact dataInfix_append_left _ _ _ (dataInfix_self _)

/-- Witness for C9's universally quantified parts at concrete blocks. -/
theorem c9_or_within_role_witness :
    strHasInfix
      (renderSegs (buildNodeBlock { node_types := ["A"] } "n" 0 "s").1 ++ " OR " ++
        renderSegs (buildNodeBlock { node_types := ["B"] } "n" 1 "s").1)
      (renderSegs (buildNodeQuery
        { source_nodes := [{ node_types := ["A"] }, { node_types := ["B"] }] }).1) =
      true :=
  c9_or_within_role_and_between_roles.2.2 { node_types := ["A"] }
    { node_types := ["B"] } (by decide) (by decide)

/-! ### Facts about `Nat.repr` (block indices in parameter keys) -/

theorem digitChar_isDigit (d : Nat) (h : d < 10) :
    (Nat.digitChar d).isDigit = true := by
  interval_cases d <;> decide

theorem toDigitsCore_zero (n : Nat) (acc : List Char) :
    Nat.toDigitsCore 10 0 n acc = acc := rfl

theorem toDigitsCore_succ (fuel n : Nat) (acc : List Char) :
    Nat.toDigitsCore 10 (fuel + 1) n acc =
      if n / 10 = 0 then Nat.digitChar (n % 10) :: acc
      else Nat.toDigitsCore 10 fuel (n / 10) (Nat.digitChar (n % 10) :: acc) := by
  rfl

theorem toDigitsCore_digits (fuel : Nat) :
    ∀ (n : Nat) (acc : List Char), (∀ c ∈ acc, c.isDigit = true) →
      ∀ c ∈ Nat.toDigitsCore 10 fuel n acc, c.isDigit = true := by
  induction fuel with
  | zero =>
    intro n acc hacc c hc
    rw [toDigitsCore_zero] at hc
    exact hacc c hc
  | succ fuel ih =>
    intro n acc hacc c hc
    rw [toDigitsCore_succ] at hc
    split at hc
    · rcases List.mem_cons.mp hc with h | h
      · subst h
        exact digitChar_isDigit _ (Nat.mod_lt _ (by decide))
      · exact hacc _ h
    · refine ih (n / 10) _ ?_ c hc
      intro c' hc'
      rcases List.mem_cons.mp hc' with h | h
      · subst h
        exact digitChar_isDigit _ (Nat.mod_lt _ (by decide))
      · exact hacc _ h

theorem repr_data_digits (n : Nat) :
    ∀ c ∈ (Nat.repr n).data, c.isDigit = true := by
  intro c hc
  have hd : (Nat.repr n).data = Nat.toDigitsCore 10 (n + 1) n [] := rfl
  rw [hd] at hc
  exact toDigitsCore_digits (n + 1) n [] (by simp) c hc

theorem underscore_not_mem_repr (n : Nat) : '_' ∉ (Nat.repr n).data := by
  intro h
  have := repr_data_digits n '_' h
  simp at this

theorem toDigitsCore_append (fuel : Nat) :
    ∀ (n : Nat) (acc : List Char),
      Nat.toDigitsCore 10 fuel n acc = Nat.toDigitsCore 10 fuel n [] ++ acc := by
  induction fuel with
  | zero =>
    intro n acc
    rw [toDigitsCore_zero, toDigitsCore_zero]
    rfl
  | succ fuel ih =>
    intro n acc
    rw [toDigitsCore_succ, toDigitsCore_succ]
    by_cases hz : n / 10 = 0
    · rw [if_pos hz, if_pos hz]
      rfl
    · rw [if_neg hz, if_neg hz,
        ih (n / 10) (Nat.digitChar (n % 10) :: acc),
        ih (n / 10) [Nat.digitChar (n % 10)]]
      simp

theorem toDigitsCore_fuel_irrel (f1 : Nat) :
    ∀ (f2 n : Nat) (acc : List Char), n < f1 → n < f2 →
      Nat.toDigitsCore 10 f1 n acc = Nat.toDigitsCore 10 f2 n acc := by
  induction f1 with
  | zero =>
    intro f2 n acc h1 _
    exact absurd h1 (Nat.not_lt_zero n)
  | succ f1 ih =>
    intro f2 n acc h1 h2
    cases f2 with
    | zero => exact absurd h2 (Nat.not_lt_zero n)
    | succ f2 =>
      rw [toDigitsCore_succ, toDigitsCore_succ]
      by_cases hz : n / 10 = 0
      · rw [if_pos hz, if_pos hz]
      · rw [if_neg hz, if_neg hz]
        have hpos : 0 < n := by
          rcases Nat.eq_zero_or_pos n with h | h
          · subst h
            simp at hz
          · exact h
        have hdiv : n / 10 < n := Nat.div_lt_self hpos (by decide)
        exact ih f2 (n / 10) _ (by omega) (by omega)

def digitVal (c : Char) : Nat := c.toNat - 48

def digitsVal (l : List Char) : Nat :=
  l.foldl (fun a c => 10 * a + digitVal c) 0

theorem digitsVal_append_aux (l : List Char) :
    ∀ a : Nat, l.foldl (fun a c => 10 * a + digitVal c) a =
      a * 10 ^ l.length + l.foldl (fun a c => 10 * a + digitVal c) 0 := by
  induction l with
  | nil => intro a; simp
  | cons c cs ih =>
    intro a
    simp only [List.foldl_cons, List.length_cons]
    rw [ih (10 * a + digitVal c), ih (10 * 0 + digitVal c)]
    ring

theorem digitsVal_append (l : List Char) (c : Char) :
    digitsVal (l ++ [c]) = 10 * digitsVal l + digitVal c := by
  unfold digitsVal
  rw [List.foldl_append]
  simp only [List.foldl_cons, List.foldl_nil]

theorem digitVal_digitChar (d : Nat) (h : d < 10) :
    digitVal (Nat.digitChar d) = d := by
  interval_cases d <;> decide

theorem toDigits_eq_small (n : Nat) (h : n < 10) :
    Nat.toDigits 10 n = [Nat.digitChar n] := by
  show Nat.toDigitsCore 10 (n + 1) n [] = _
  rw [toDigitsCore_succ, if_pos (Nat.div_eq_of_lt h), Nat.mod_eq_of_lt h]

theorem toDigits_eq_large (n : Nat) (h : 10 ≤ n) :
    Nat.toDigits 10 n = Nat.toDigits 10 (n / 10) ++ [Nat.digitChar (n % 10)] := by
  have hz : n / 10 ≠ 0 := Nat.ne_of_gt (Nat.div_pos h (by decide))
  have hdiv : n / 10 < n := Nat.div_lt_self (by omega) (by decide)
  show Nat.toDigitsCore 10 (n + 1) n [] = _
  rw [toDigitsCore_succ, if_neg hz,
    toDigitsCore_append n (n / 10) [Nat.digitChar (n % 10)],
    toDigitsCore_fuel_irrel n (n / 10 + 1) (n / 10) [] hdiv (by omega)]
  rfl

theorem digitsVal_toDigits (n : Nat) :
    digitsVal (Nat.toDigits 10 n) = n := by
  induction n using Nat.strong_induction_on with
  | _ n ih =>
    by_cases h : n < 10
    · rw [toDigits_eq_small n h]
      show 10 * 0 + digitVal (Nat.digitChar n) = n
      rw [digitVal_digitChar n h]
      omega
    · rw [toDigits_eq_large n (by omega), digitsVal_append,
        ih (n / 10) (Nat.div_lt_self (by omega) (by decide)),
        digitVal_digitChar _ (Nat.mod_lt _ (by decide))]
      omega

theorem repr_inj {m n : Nat} (h : Nat.repr m = Nat.repr n) : m = n := by
  have hd : Nat.toDigits 10 m = Nat.toDigits 10 n := congrArg String.data h
  calc m = digitsVal (Nat.toDigits 10 m) := (digitsVal_toDigits m).symm
    _ = digitsVal (Nat.toDigits 10 n) := by rw [hd]
    _ = n := digitsVal_toDigits n

/-- Splitting a character list at the first underscore is unambiguous when the
part before it is underscore-free. -/
theorem underscore_split (a : List Char) :
    ∀ (b x y : List Char), '_' ∉ a → '_' ∉ b →
      a ++ '_' :: x = b ++ '_' :: y → a = b ∧ x = y := by
  induction a with
  | nil =>
    intro b x y _ hb h
    cases b with
    | nil => simpa using h
    | cons d bs =>
      simp only [List.nil_append, List.cons_append, List.cons.injEq] at h
      exact absurd (h.1 ▸ List.mem_cons_self '_' bs) (by
        intro hm
        exact hb (h.1 ▸ List.mem_cons_self _ _))
  | cons c as ih =>
    intro b x y ha hb h
    cases b with
    | nil =>
      simp only [List.cons_append, List.nil_append, List.cons.injEq] at h
      exact absurd (h.1 ▸ List.mem_cons_self c as) (by
        intro _
        exact ha (h.1 ▸ List.mem_cons_self _ _))
    | cons d bs =>
      simp only [List.cons_append, List.cons.injEq] at h
      obtain ⟨hcd, htail⟩ := h
      have ha' : '_' ∉ as := fun hm => ha (List.mem_cons_of_mem _ hm)
      have hb' : '_' ∉ bs := fun hm => hb (List.mem_cons_of_mem _ hm)
      obtain ⟨h1, h2⟩ := ih bs x y ha' hb' htail
      exact ⟨by rw [hcd, h1], h2⟩

/-! ### Expected parameter keys of each block -/

/-- The part of a condition's parameter key that is independent of the
block prefix: `sanitized(property_name) + "_" + operator_name`. -/
def condSuffix (pf : PropertyFilter) : String :=
  sanitizeProp pf.property_name ++ "_" ++ opLower pf.operator

def condKeys (pKey : String) (filters : List PropertyFilter) : List String :=
  filters.map fun pf => condKey pKey pf

def nodeBlockKeys (c : NodeCriteria) (pKey : String) : List String :=
  (if c.node_types.isEmpty then [] else [pKey ++ "_labels"]) ++
    condKeys pKey c.property_filters

def relBlockKeys (c : RelationshipCriteria) (pKey : String) : List String :=
  (if c.relationship_types.isEmpty then [] else [pKey ++ "_types"]) ++
    condKeys pKey c.property_filters

theorem condKey_eq (pKey : String) (pf : PropertyFilter) :
    condKey pKey pf = pKey ++ "_" ++ condSuffix pf := by
  unfold condKey condSuffix
  simp [String.append_assoc]

theorem append_under_inj (pKey : String) {x y : String}
    (h : pKey ++ "_" ++ x = pKey ++ "_" ++ y) : x = y := by
  have hd := congrArg String.data h
  simp only [String.data_append, List.append_assoc] at hd
  exact String.ext (List.append_cancel_left (List.append_cancel_left hd))

theorem condKeys_nodup (pKey : String) (filters : List PropertyFilter)
    (h : (filters.map condSuffix).Nodup) : (condKeys pKey filters).Nodup := by
  unfold condKeys
  have hmap : filters.map (fun pf => condKey pKey pf) =
      (filters.map condSuffix).map (fun x => pKey ++ "_" ++ x) := by
    rw [List.map_map]
    apply List.map_congr_left
    intro pf _
    exact condKey_eq pKey pf
  rw [hmap]
  exact h.map fun x y hxy => append_under_inj pKey hxy

theorem condKey_data (pKey : String) (pf : PropertyFilter) :
    (condKey pKey pf).data = pKey.data ++ '_' :: (condSuffix pf).data := by
  rw [condKey_eq]
  simp [String.data_append]

theorem labelsKey_data (pKey : String) :
    (pKey ++ "_labels").data = pKey.data ++ '_' :: ("labels" : String).data := by
  rw [String.data_append]

theorem typesKey_data (pKey : String) :
    (pKey ++ "_types").data = pKey.data ++ '_' :: ("types" : String).data := by
  rw [String.data_append]

theorem underscore_mem_condSuffix (pf : PropertyFilter) :
    '_' ∈ (condSuffix pf).data := by
  unfold condSuffix
  simp [String.data_append]

theorem labels_notin_condKeys (pKey : String) (filters : List PropertyFilter) :
    pKey ++ "_labels" ∉ condKeys pKey filters := by
  intro h
  unfold condKeys at h
  rw [List.mem_map] at h
  obtain ⟨pf, _, heq⟩ := h
  have hd := congrArg String.data heq
  rw [condKey_data, labelsKey_data] at hd
  have hc := List.append_cancel_left hd
  injection hc with _ hsuf
  have h1 := underscore_mem_condSuffix pf
  rw [hsuf] at h1
  exact absurd h1 (by decide)

theorem types_notin_condKeys (pKey : String) (filters : List PropertyFilter) :
    pKey ++ "_types" ∉ condKeys pKey filters := by
  intro h
  unfold condKeys at h
  rw [List.mem_map] at h
  obtain ⟨pf, _, heq⟩ := h
  have hd := congrArg String.data heq
  rw [condKey_data, typesKey_data] at hd
  have hc := List.append_cancel_left hd
  injection hc with _ hsuf
  have h1 := underscore_mem_condSuffix pf
  rw [hsuf] at h1
  exact absurd h1 (by decide)

theorem nodeBlockKeys_nodup (c : NodeCriteria) (pKey : String)
    (h : (c.property_filters.map condSuffix).Nodup) :
    (nodeBlockKeys c pKey).Nodup := by
  unfold nodeBlockKeys
  rw [List.nodup_append]
  refine ⟨?_, condKeys_nodup pKey _ h, ?_⟩
  · by_cases ht : c.node_types.isEmpty
    · rw [if_pos ht]
      exact List.nodup_nil
    · rw [if_neg ht]
      exact List.nodup_singleton _
  · intro a ha
    by_cases ht : c.node_types.isEmpty
    · rw [if_pos ht] at ha
      cases ha
    · rw [if_neg ht] at ha
      rw [List.mem_singleton] at ha
      subst ha
      exact labels_notin_condKeys pKey _

theorem relBlockKeys_nodup (c : RelationshipCriteria) (pKey : String)
    (h : (c.property_filters.map condSuffix).Nodup) :
    (relBlockKeys c pKey).Nodup := by
  unfold relBlockKeys
  rw [List.nodup_append]
  refine ⟨?_, condKeys_nodup pKey _ h, ?_⟩
  · by_cases ht : c.relationship_types.isEmpty
    · rw [if_pos ht]
      exact List.nodup_nil
    · rw [if_neg ht]
      exact List.nodup_singleton _
  · intro a ha
    by_cases ht : c.relationship_types.isEmpty
    · rw [if_pos ht] at ha
      cases ha
    · rw [if_neg ht] at ha
      rw [List.mem_singleton] at ha
      subst ha
      exact types_notin_condKeys pKey _

/-- `k` is a key generated for block index `i` of the group with prefix
`pfx`: it reads `pfx + repr i + "_" + rest`. -/
def keyIdx (pfx : List Char) (i : Nat) (k : String) : Prop :=
  ∃ rest, k.data = pfx ++ (Nat.repr i).data ++ '_' :: rest

theorem keyIdx_inj (pfx : List Char) (i j : Nat) (k : String)
    (hi : keyIdx pfx i k) (hj : keyIdx pfx j k) : i = j := by
  obtain ⟨r1, h1⟩ := hi
  obtain ⟨r2, h2⟩ := hj
  rw [h1] at h2
  rw [List.append_assoc, List.append_assoc] at h2
  have h3 := @List.append_cancel_left Char pfx
    ((Nat.repr i).data ++ '_' :: r1) ((Nat.repr j).data ++ '_' :: r2) h2
  obtain ⟨h4, _⟩ := underscore_split _ _ _ _
    (underscore_not_mem_repr i) (underscore_not_mem_repr j) h3
  exact repr_inj (String.ext h4)

theorem nodeBlockKeys_keyIdx (c : NodeCriteria) (pfxS : String) (i : Nat) :
    ∀ k ∈ nodeBlockKeys c (pfxS ++ Nat.repr i), keyIdx pfxS.data i k := by
  intro k hk
  unfold nodeBlockKeys at hk
  rw [List.mem_append] at hk
  rcases hk with h | h
  · by_cases ht : c.node_types.isEmpty
    · rw [if_pos ht] at h
      cases h
    · rw [if_neg ht] at h
      rw [List.mem_singleton] at h
      subst h
      exact ⟨("labels" : String).data, by
        rw [labelsKey_data]
        simp [String.data_append, List.append_assoc]⟩
  · unfold condKeys at h
    rw [List.mem_map] at h
    obtain ⟨pf, _, heq⟩ := h
    subst heq
    exact ⟨(condSuffix pf).data, by
      rw [condKey_data]
      simp [String.data_append, List.append_assoc]⟩

theorem relBlockKeys_keyIdx (c : RelationshipCriteria) (pfxS : String) (i : Nat) :
    ∀ k ∈ relBlockKeys c (pfxS ++ Nat.repr i), keyIdx pfxS.data i k := by
  intro k hk
  unfold relBlockKeys at hk
  rw [List.mem_append] at hk
  rcases hk with h | h
  · by_cases ht : c.relationship_types.isEmpty
    · rw [if_pos ht] at h
      cases h
    · rw [if_neg ht] at h
      rw [List.mem_singleton] at h
      subst h
      exact ⟨("types" : String).data, by
        rw [typesKey_data]
        simp [String.data_append, List.append_assoc]⟩
  · unfold condKeys at h
    rw [List.mem_map] at h
    obtain ⟨pf, _, heq⟩ := h
    subst heq
    exact ⟨(condSuffix pf).data, by
      rw [condKey_data]
      simp [String.data_append, List.append_assoc]⟩

theorem keyIdx_firstChar (c : Char) (rest : List Char) (i : Nat) (k : String)
    (h : keyIdx (c :: rest) i k) : ∃ t, k.data = c :: t := by
  obtain ⟨r, hr⟩ := h
  exact ⟨rest ++ (Nat.repr i).data ++ '_' :: r, by simpa using hr⟩

theorem bpc_snd (pf : PropertyFilter) (v pKey : String) :
    (buildPropertyCondition pf v pKey).2 = [(condKey pKey pf, pf.value)] := rfl

theorem dictUpdate_singleton {α : Type} (m : List (String × α)) (k : String)
    (v : α) : dictUpdate m [(k, v)] = dictInsert m k v := rfl

theorem keysOf_dictInsert_not_mem {α : Type} (m : List (String × α))
    (k : String) (v : α) (h : k ∉ keysOf m) :
    keysOf (dictInsert m k v) = keysOf m ++ [k] := by
  rw [keysOf_dictInsert, if_neg h]

theorem keysOf_foldl_bpc (v pKey : String) (filters : List PropertyFilter) :
    ∀ init : Params,
      (keysOf init ++ condKeys pKey filters).Nodup →
      keysOf (filters.foldl
        (fun ps pf => dictUpdate ps (buildPropertyCondition pf v pKey).2) init) =
        keysOf init ++ condKeys pKey filters := by
  induction filters with
  | nil =>
    intro init _
    simp [condKeys]
  | cons pf pfs ih =>
    intro init hnd
    have hfold : (pf :: pfs).foldl
        (fun ps pf => dictUpdate ps (buildPropertyCondition pf v pKey).2) init =
        pfs.foldl (fun ps pf => dictUpdate ps (buildPropertyCondition pf v pKey).2)
          (dictInsert init (condKey pKey pf) pf.value) := rfl
    rw [hfold]
    have hknotin : condKey pKey pf ∉ keysOf init := by
      rw [List.nodup_append] at hnd
      exact fun hk => hnd.2.2 hk
        (by unfold condKeys; exact List.mem_map_of_mem _ (List.mem_cons_self _ _))
    have hstep := keysOf_dictInsert_not_mem init (condKey pKey pf) pf.value hknotin
    have hnd' : (keysOf (dictInsert init (condKey pKey pf) pf.value) ++
        condKeys pKey pfs).Nodup := by
      rw [hstep]
      have : (keysOf init ++ [condKey pKey pf]) ++ condKeys pKey pfs =
          keysOf init ++ condKeys pKey (pf :: pfs) := by
        simp [condKeys, List.append_assoc]
      rw [this]
      exact hnd
    rw [ih _ hnd', hstep]
    simp [condKeys, List.append_assoc]

theorem keysOf_nodeBlockParams (c : NodeCriteria) (v pKey : String)
    (h : (c.property_filters.map condSuffix).Nodup) :
    keysOf (nodeBlockParams c v pKey) = nodeBlockKeys c pKey := by
  have hinit : keysOf (if c.node_types.isEmpty then ([] : Params) else
      [(pKey ++ "_labels", Value.strList c.node_types)]) =
      (if c.node_types.isEmpty then [] else [pKey ++ "_labels"]) := by
    by_cases ht : c.node_types.isEmpty <;> simp [ht, keysOf]
  have hnd : (keysOf (if c.node_types.isEmpty then ([] : Params) else
      [(pKey ++ "_labels", Value.strList c.node_types)]) ++
      condKeys pKey c.property_filters).Nodup := by
    rw [hinit]
    exact nodeBlockKeys_nodup c pKey h
  unfold nodeBlockParams
  rw [keysOf_foldl_bpc v pKey c.property_filters _ hnd, hinit]
  rfl

theorem keysOf_relBlockParams (c : RelationshipCriteria) (v pKey : String)
    (h : (c.property_filters.map condSuffix).Nodup) :
    keysOf (relBlockParams c v pKey) = relBlockKeys c pKey := by
  have hinit : keysOf (if c.relationship_types.isEmpty then ([] : Params) else
      [(pKey ++ "_types", Value.strList c.relationship_types)]) =
      (if c.relationship_types.isEmpty then [] else [pKey ++ "_types"]) := by
    by_cases ht : c.relationship_types.isEmpty <;> simp [ht, keysOf]
  have hnd : (keysOf (if c.relationship_types.isEmpty then ([] : Params) else
      [(pKey ++ "_types", Value.strList c.relationship_types)]) ++
      condKeys pKey c.property_filters).Nodup := by
    rw [hinit]
    exact relBlockKeys_nodup c pKey h
  unfold relBlockParams
  rw [keysOf_foldl_bpc v pKey c.property_filters _ hnd, hinit]
  rfl

theorem nodeBlockConds_isEmpty (c : NodeCriteria) (v pKey : String)
    (h : (nodeBlockConds c v pKey).isEmpty = true) :
    c.node_types.isEmpty = true ∧ c.property_filters = [] := by
  unfold nodeBlockConds at h
  rw [List.isEmpty_iff] at h
  have h2 := List.append_eq_nil.mp h
  constructor
  · by_cases ht : c.node_types.isEmpty
    · exact ht
    · rw [if_neg ht] at h2
      cases h2.1
  · by_cases hp : (nodeBlockPropConds c v pKey).isEmpty
    · unfold nodeBlockPropConds at hp
      rw [List.isEmpty_iff] at hp
      exact List.map_eq_nil.mp hp
    · rw [if_neg hp] at h2
      cases h2.2

theorem keysOf_buildNodeBlock (c : NodeCriteria) (v : String) (i : Nat)
    (pfx : String) (h : (c.property_filters.map condSuffix).Nodup) :
    keysOf (buildNodeBlock c v i pfx).2 = nodeBlockKeys c (pfx ++ Nat.repr i) := by
  unfold buildNodeBlock
  dsimp only
  by_cases hc : (nodeBlockConds c v (pfx ++ Nat.repr i)).isEmpty
  · rw [if_pos hc]
    obtain ⟨ht, hf⟩ := nodeBlockConds_isEmpty c v _ hc
    unfold nodeBlockKeys condKeys
    rw [if_pos ht, hf]
    rfl
  · rw [if_neg hc]
    exact keysOf_nodeBlockParams c v _ h

theorem relSimpleConds_isEmpty (c : RelationshipCriteria) (pKey : String)
    (h : (relSimpleConds c pKey).isEmpty = true) :
    c.relationship_types.isEmpty = true ∧ c.property_filters = [] := by
  unfold relSimpleConds at h
  dsimp only at h
  have hbase : (relBlockTypeConds c "r" pKey ++
      relBlockPropConds c "r" pKey).isEmpty = true := by
    split at h
    · rw [isEmpty_append_singleton] at h
      cases h
    · split at h
      · rw [isEmpty_append_singleton] at h
        cases h
      · exact h
  rw [List.isEmpty_iff] at hbase
  have h2 := List.append_eq_nil.mp hbase
  constructor
  · by_cases ht : c.relationship_types.isEmpty
    · exact ht
    · unfold relBlockTypeConds at h2
      rw [if_neg ht] at h2
      cases h2.1
  · unfold relBlockPropConds at h2
    exact List.map_eq_nil.mp h2.2

theorem keysOf_buildRelBlockSimple (c : RelationshipCriteria) (i : Nat)
    (h : (c.property_filters.map condSuffix).Nodup) :
    keysOf (buildRelBlockSimple c i).2 = relBlockKeys c ("rel" ++ Nat.repr i) := by
  unfold buildRelBlockSimple
  dsimp only
  by_cases hc : (relSimpleConds c ("rel" ++ Nat.repr i)).isEmpty
  · rw [if_pos hc]
    obtain ⟨ht, hf⟩ := relSimpleConds_isEmpty c _ hc
    unfold relBlockKeys condKeys
    rw [if_pos ht, hf]
    rfl
  · rw [if_neg hc]
    exact keysOf_relBlockParams c "r" _ h

theorem keysOf_buildRelBlockVariable (c : RelationshipCriteria) (pv : String)
    (i : Nat) (h : (c.property_filters.map condSuffix).Nodup) :
    keysOf (buildRelBlockVariable c pv i).2 = relBlockKeys c ("rel" ++ Nat.repr i) := by
  unfold buildRelBlockVariable
  dsimp only
  exact keysOf_relBlockParams c "r" _ h

/-! ### Accumulated keys of a whole role group -/

/-- The expected key lists of a group's blocks, indexed as `enumerate` does. -/
def groupKeys {α : Type} (keysF : α → String → List String) (pfx : String) :
    List α → Nat → List (List String)
  | [], _ => []
  | c :: cs, i => keysF c (pfx ++ Nat.repr i) :: groupKeys keysF pfx cs (i + 1)

theorem mem_builtBlocks_shape {α : Type} (build : α → Nat → List Seg × Params)
    (l : List α) : ∀ (i : Nat) (bp : List Seg × Params),
      bp ∈ builtBlocks build l i → ∃ c j, bp = build c j := by
  induction l with
  | nil =>
    intro i bp h
    cases h
  | cons c cs ih =>
    intro i bp h
    rcases List.mem_cons.mp h with h | h
    · exact ⟨c, i, h⟩
    · exact ih (i + 1) bp h

theorem buildNodeBlock_empty_params (c : NodeCriteria) (v : String) (i : Nat)
    (pfx : String) (h : (buildNodeBlock c v i pfx).1.isEmpty = true) :
    (buildNodeBlock c v i pfx).2 = [] := by
  unfold buildNodeBlock at *
  dsimp only at *
  by_cases hc : (nodeBlockConds c v (pfx ++ Nat.repr i)).isEmpty
  · rw [if_pos hc]
  · rw [if_neg hc] at h
    simp at h

theorem buildRelBlockSimple_empty_params (c : RelationshipCriteria) (i : Nat)
    (h : (buildRelBlockSimple c i).1.isEmpty = true) :
    (buildRelBlockSimple c i).2 = [] := by
  unfold buildRelBlockSimple at *
  dsimp only at *
  by_cases hc : (relSimpleConds c ("rel" ++ Nat.repr i)).isEmpty
  · rw [if_pos hc]
  · rw [if_neg hc] at h
    simp at h

theorem builtBlocks_keys {α : Type} (build : α → Nat → List Seg × Params)
    (keysF : α → String → List String) (pfx : String) :
    ∀ (l : List α),
      (∀ c ∈ l, ∀ i, keysOf (build c i).2 = keysF c (pfx ++ Nat.repr i)) →
      ∀ i, (builtBlocks build l i).map (fun bp => keysOf bp.2) =
        groupKeys keysF pfx l i := by
  intro l
  induction l with
  | nil =>
    intro _ i
    rfl
  | cons c cs ih =>
    intro h i
    show keysOf (build c i).2 :: _ = keysF c (pfx ++ Nat.repr i) :: _
    rw [h c (List.mem_cons_self _ _) i,
      ih (fun c' hc' => h c' (List.mem_cons_of_mem _ hc')) (i + 1)]

theorem flatten_filter_keys (bl : List (List Seg × Params))
    (hvac : ∀ bp ∈ bl, bp.1.isEmpty = true → bp.2 = []) :
    ((bl.filter fun bp => !bp.1.isEmpty).map fun bp => keysOf bp.2).flatten =
      (bl.map fun bp => keysOf bp.2).flatten := by
  induction bl with
  | nil => rfl
  | cons bp bl ih =>
    have ih' := ih fun bp' h' => hvac bp' (List.mem_cons_of_mem _ h')
    by_cases hb : bp.1.isEmpty
    · rw [List.filter_cons_of_neg (by simp [hb]), List.map_cons,
        List.flatten_cons, hvac bp (List.mem_cons_self _ _) hb, ih']
      rfl
    · rw [List.filter_cons_of_pos (by simp [hb])]
      simp only [List.map_cons, List.flatten_cons]
      rw [ih']

theorem keysOf_dictUpdate_disjoint {α : Type} :
    ∀ (m' m : List (String × α)), (keysOf m').Nodup →
      (∀ a ∈ keysOf m', a ∉ keysOf m) →
      keysOf (dictUpdate m m') = keysOf m ++ keysOf m' := by
  intro m'
  induction m' with
  | nil =>
    intro m _ _
    simp [dictUpdate, keysOf]
  | cons p ps ih =>
    intro m hnd hdisj
    have hndcons : (p.1 :: keysOf ps).Nodup := hnd
    have hp1 : p.1 ∉ keysOf m := hdisj p.1 (List.mem_cons_self _ _)
    have hstep := keysOf_dictInsert_not_mem m p.1 p.2 hp1
    have hnd' : (keysOf ps).Nodup := (List.nodup_cons.mp hndcons).2
    have hdisj' : ∀ a ∈ keysOf ps, a ∉ keysOf (dictInsert m p.1 p.2) := by
      intro a ha hmem
      rw [hstep] at hmem
      rcases List.mem_append.mp hmem with h | h
      · exact hdisj a (List.mem_cons_of_mem _ ha) h
      · rw [List.mem_singleton] at h
        subst h
        exact (List.nodup_cons.mp hndcons).1 ha
    show keysOf (dictUpdate (dictInsert m p.1 p.2) ps) = keysOf m ++ keysOf (p :: ps)
    rw [ih _ hnd' hdisj', hstep]
    show (keysOf m ++ [p.1]) ++ keysOf ps = keysOf m ++ p.1 :: keysOf ps
    simp [List.append_assoc]

theorem keysOf_foldl_blocks :
    ∀ (bps : List (List Seg × Params)) (init : Params),
      (keysOf init ++ (bps.map fun bp => keysOf bp.2).flatten).Nodup →
      keysOf (bps.foldl (fun ps bp => dictUpdate ps bp.2) init) =
        keysOf init ++ (bps.map fun bp => keysOf bp.2).flatten := by
  intro bps
  induction bps with
  | nil =>
    intro init _
    simp
  | cons bp bps ih =>
    intro init hnd
    simp only [List.map_cons, List.flatten_cons] at hnd ⊢
    have hnd1 := List.nodup_append.mp hnd
    have hK : (keysOf bp.2).Nodup := (List.nodup_append.mp hnd1.2.1).1
    have hdisjK : ∀ a ∈ keysOf bp.2, a ∉ keysOf init := by
      intro a ha hainit
      exact hnd1.2.2 hainit (List.mem_append_left _ ha)
    have hupd := keysOf_dictUpdate_disjoint bp.2 init hK hdisjK
    simp only [List.foldl_cons]
    rw [ih (dictUpdate init bp.2) (by rw [hupd, List.append_assoc]; exact hnd),
      hupd, List.append_assoc]

theorem groupKeys_mem_keyIdx {α : Type} (keysF : α → String → List String)
    (pfx : String) :
    ∀ (l : List α),
      (∀ c ∈ l, ∀ i, ∀ k ∈ keysF c (pfx ++ Nat.repr i), keyIdx pfx.data i k) →
      ∀ i k, k ∈ (groupKeys keysF pfx l i).flatten →
        ∃ j, i ≤ j ∧ keyIdx pfx.data j k := by
  intro l
  induction l with
  | nil =>
    intro _ i k hk
    cases hk
  | cons c cs ih =>
    intro hkf i k hk
    rw [show groupKeys keysF pfx (c :: cs) i =
      keysF c (pfx ++ Nat.repr i) :: groupKeys keysF pfx cs (i + 1) from rfl,
      List.flatten_cons, List.mem_append] at hk
    rcases hk with h | h
    · exact ⟨i, Nat.le_refl i, hkf c (List.mem_cons_self _ _) i k h⟩
    · obtain ⟨j, hj, hkj⟩ :=
        ih (fun c' hc' => hkf c' (List.mem_cons_of_mem _ hc')) (i + 1) k h
      exact ⟨j, by omega, hkj⟩

theorem groupKeys_flatten_nodup {α : Type} (keysF : α → String → List String)
    (pfx : String) :
    ∀ (l : List α),
      (∀ c ∈ l, ∀ i, ∀ k ∈ keysF c (pfx ++ Nat.repr i), keyIdx pfx.data i k) →
      (∀ c ∈ l, ∀ i, (keysF c (pfx ++ Nat.repr i)).Nodup) →
      ∀ i, ((groupKeys keysF pfx l i).flatten).Nodup := by
  intro l
  induction l with
  | nil =>
    intro _ _ i
    exact List.nodup_nil
  | cons c cs ih =>
    intro hkf hnd i
    rw [show groupKeys keysF pfx (c :: cs) i =
      keysF c (pfx ++ Nat.repr i) :: groupKeys keysF pfx cs (i + 1) from rfl,
      List.flatten_cons, List.nodup_append]
    refine ⟨hnd c (List.mem_cons_self _ _) i,
      ih (fun c' hc' => hkf c' (List.mem_cons_of_mem _ hc'))
        (fun c' hc' => hnd c' (List.mem_cons_of_mem _ hc')) (i + 1), ?_⟩
    intro a ha hrest
    obtain ⟨j, hj, hkj⟩ := groupKeys_mem_keyIdx keysF pfx cs
      (fun c' hc' => hkf c' (List.mem_cons_of_mem _ hc')) (i + 1) a hrest
    have hki := hkf c (List.mem_cons_self _ _) i a ha
    have := keyIdx_inj pfx.data i j a hki hkj
    omega

theorem keysOf_blocksParams {α : Type} (build : α → Nat → List Seg × Params)
    (keysF : α → String → List String) (pfx : String) (l : List α) (init : Params)
    (hkeys : ∀ c ∈ l, ∀ i, keysOf (build c i).2 = keysF c (pfx ++ Nat.repr i))
    (hvac : ∀ c j, (build c j).1.isEmpty = true → (build c j).2 = [])
    (hnd : (keysOf init ++ (groupKeys keysF pfx l 0).flatten).Nodup) :
    keysOf (blocksParams build l init) =
      keysOf init ++ (groupKeys keysF pfx l 0).flatten := by
  unfold blocksParams keptBlocks
  have hvac' : ∀ bp ∈ builtBlocks build l 0, bp.1.isEmpty = true → bp.2 = [] := by
    intro bp hbp h
    obtain ⟨c, j, rfl⟩ := mem_builtBlocks_shape build l 0 bp hbp
    exact hvac c j h
  have hmap := builtBlocks_keys build keysF pfx l hkeys 0
  have hflat := flatten_filter_keys (builtBlocks build l 0) hvac'
  rw [keysOf_foldl_blocks _ init (by rw [hflat, hmap]; exact hnd), hflat, hmap]

theorem groupKeys_firstChar {α : Type} (keysF : α → String → List String)
    (pfx : String) (c0 : Char) (rest : List Char) (hp : pfx.data = c0 :: rest)
    (l : List α)
    (hkf : ∀ c ∈ l, ∀ i, ∀ k ∈ keysF c (pfx ++ Nat.repr i), keyIdx pfx.data i k) :
    ∀ i k, k ∈ (groupKeys keysF pfx l i).flatten → k.data.head? = some c0 := by
  intro i k hk
  obtain ⟨j, _, hkj⟩ := groupKeys_mem_keyIdx keysF pfx l hkf i k hk
  rw [hp] at hkj
  obtain ⟨t, ht⟩ := keyIdx_firstChar c0 rest j k hkj
  rw [ht]
  rfl

/-! ### The full parameter maps of the two compiled queries -/

theorem buildNodeQuery_snd (req : GraphFilterRequest) :
    (buildNodeQuery req).2 =
      (if searchActive req.search_query then
        dictInsert
          (blocksParams (fun c i => buildNodeBlock c "n" i "s") req.source_nodes [])
          "g_search" (Value.str ("(?i).*" ++ (req.search_query.getD "") ++ ".*"))
      else
        blocksParams (fun c i => buildNodeBlock c "n" i "s") req.source_nodes []) :=
  rfl

theorem buildRelationshipQuery_snd (req : GraphFilterRequest) :
    (buildRelationshipQuery req).2 =
      blocksParams
        (fun c i => if useVariablePath req then buildRelBlockVariable c "p" i
          else buildRelBlockSimple c i)
        req.relationships
        (blocksParams (fun c i => buildNodeBlock c "m" i "t") req.target_nodes
          (blocksParams (fun c i => buildNodeBlock c "n" i "s") req.source_nodes [])) :=
  rfl

/-- Number of property conditions across a list of node criteria blocks. -/
def numPropCondsN (l : List NodeCriteria) : Nat :=
  (l.map fun c => c.property_filters.length).sum

/-- Number of property conditions across a list of relationship criteria. -/
def numPropCondsR (l : List RelationshipCriteria) : Nat :=
  (l.map fun c => c.property_filters.length).sum

/-- Number of node blocks contributing a `_labels` parameter entry. -/
def numTypeEntriesN (l : List NodeCriteria) : Nat :=
  (l.filter fun c => !c.node_types.isEmpty).length

/-- Number of relationship blocks contributing a `_types` parameter entry. -/
def numTypeEntriesR (l : List RelationshipCriteria) : Nat :=
  (l.filter fun c => !c.relationship_types.isEmpty).length

theorem groupKeys_node_length (pfx : String) (l : List NodeCriteria) :
    ∀ i, ((groupKeys nodeBlockKeys pfx l i).flatten).length =
      numPropCondsN l + numTypeEntriesN l := by
  induction l with
  | nil =>
    intro i
    rfl
  | cons c cs ih =>
    intro i
    rw [show groupKeys nodeBlockKeys pfx (c :: cs) i =
      nodeBlockKeys c (pfx ++ Nat.repr i) :: groupKeys nodeBlockKeys pfx cs (i + 1)
      from rfl, List.flatten_cons, List.length_append, ih (i + 1)]
    unfold numPropCondsN numTypeEntriesN nodeBlockKeys condKeys
    rw [List.map_cons, List.sum_cons, List.filter_cons, List.length_append,
      List.length_map]
    by_cases ht : c.node_types.isEmpty <;> simp [ht] <;> omega

theorem groupKeys_rel_length (pfx : String) (l : List RelationshipCriteria) :
    ∀ i, ((groupKeys relBlockKeys pfx l i).flatten).length =
      numPropCondsR l + numTypeEntriesR l := by
  induction l with
  | nil =>
    intro i
    rfl
  | cons c cs ih =>
    intro i
    rw [show groupKeys relBlockKeys pfx (c :: cs) i =
      relBlockKeys c (pfx ++ Nat.repr i) :: groupKeys relBlockKeys pfx cs (i + 1)
      from rfl, List.flatten_cons, List.length_append, ih (i + 1)]
    unfold numPropCondsR numTypeEntriesR relBlockKeys condKeys
    rw [List.map_cons, List.sum_cons, List.filter_cons, List.length_append,
      List.length_map]
    by_cases ht : c.relationship_types.isEmpty <;> simp [ht] <;> omega

/-- The complete key list of `build_node_query`'s parameter map: the flattened
per-block keys of the source group, then (when search is active) `g_search`;
and this list has no duplicates.  Requires each block's condition suffixes
(`sanitized(property)_operator`) to be distinct within the block. -/
theorem keysOf_buildNodeQuery (req : GraphFilterRequest)
    (Hs : ∀ c ∈ req.source_nodes, (c.property_filters.map condSuffix).Nodup) :
    keysOf (buildNodeQuery req).2 =
      (groupKeys nodeBlockKeys "s" req.source_nodes 0).flatten ++
        (if searchActive req.search_query then ["g_search"] else []) ∧
    (keysOf (buildNodeQuery req).2).Nodup := by
  have hkf : ∀ c ∈ req.source_nodes, ∀ i,
      ∀ k ∈ nodeBlockKeys c ("s" ++ Nat.repr i), keyIdx ("s" : String).data i k :=
    fun c _ i => nodeBlockKeys_keyIdx c "s" i
  have hsnodup : ((groupKeys nodeBlockKeys "s" req.source_nodes 0).flatten).Nodup :=
    groupKeys_flatten_nodup nodeBlockKeys "s" req.source_nodes hkf
      (fun c hc i => nodeBlockKeys_nodup c _ (Hs c hc)) 0
  have hs0 : keysOf
      (blocksParams (fun c i => buildNodeBlock c "n" i "s") req.source_nodes []) =
      (groupKeys nodeBlockKeys "s" req.source_nodes 0).flatten := by
    have := keysOf_blocksParams (fun c i => buildNodeBlock c "n" i "s")
      nodeBlockKeys "s" req.source_nodes []
      (fun c hc i => keysOf_buildNodeBlock c "n" i "s" (Hs c hc))
      (fun c j h => buildNodeBlock_empty_params c "n" j "s" h)
      (by simpa using hsnodup)
    simpa using this
  have hshead : ∀ k ∈ (groupKeys nodeBlockKeys "s" req.source_nodes 0).flatten,
      k.data.head? = some 's' :=
    groupKeys_firstChar nodeBlockKeys "s" 's' [] rfl req.source_nodes hkf 0
  have hg : ("g_search" : String) ∉
      (groupKeys nodeBlockKeys "s" req.source_nodes 0).flatten := by
    intro hmem
    have h1 := hshead _ hmem
    have h2 : ("g_search" : String).data.head? = some 'g' := rfl
    rw [h1] at h2
    simp at h2
  rw [buildNodeQuery_snd]
  by_cases hq : searchActive req.search_query
  · rw [if_pos hq, if_pos hq,
      keysOf_dictInsert_not_mem _ _ _ (by rw [hs0]; exact hg), hs0]
    refine ⟨rfl, ?_⟩
    rw [List.nodup_append]
    refine ⟨hsnodup, List.nodup_singleton _, ?_⟩
    intro a ha hb
    rw [List.mem_singleton] at hb
    subst hb
    exact hg ha
  · rw [if_neg hq, if_neg hq, hs0]
    exact ⟨by simp, hsnodup⟩

/-- The complete key list of `build_relationship_query`'s parameter map: the
flattened source-group keys, then the target group, then the relationship
group; and this list has no duplicates. -/
theorem keysOf_buildRelationshipQuery (req : GraphFilterRequest)
    (Hs : ∀ c ∈ req.source_nodes, (c.property_filters.map condSuffix).Nodup)
    (Ht : ∀ c ∈ req.target_nodes, (c.property_filters.map condSuffix).Nodup)
    (Hr : ∀ c ∈ req.relationships, (c.property_filters.map condSuffix).Nodup) :
    keysOf (buildRelationshipQuery req).2 =
      ((groupKeys nodeBlockKeys "s" req.source_nodes 0).flatten ++
        (groupKeys nodeBlockKeys "t" req.target_nodes 0).flatten) ++
        (groupKeys relBlockKeys "rel" req.relationships 0).flatten ∧
    (keysOf (buildRelationshipQuery req).2).Nodup := by
  have hkfS : ∀ c ∈ req.source_nodes, ∀ i,
      ∀ k ∈ nodeBlockKeys c ("s" ++ Nat.repr i), keyIdx ("s" : String).data i k :=
    fun c _ i => nodeBlockKeys_keyIdx c "s" i
  have hkfT : ∀ c ∈ req.target_nodes, ∀ i,
      ∀ k ∈ nodeBlockKeys c ("t" ++ Nat.repr i), keyIdx ("t" : String).data i k :=
    fun c _ i => nodeBlockKeys_keyIdx c "t" i
  have hkfR : ∀ c ∈ req.relationships, ∀ i,
      ∀ k ∈ relBlockKeys c ("rel" ++ Nat.repr i), keyIdx ("rel" : String).data i k :=
    fun c _ i => relBlockKeys_keyIdx c "rel" i
  have hndS : ((groupKeys nodeBlockKeys "s" req.source_nodes 0).flatten).Nodup :=
    groupKeys_flatten_nodup nodeBlockKeys "s" req.source_nodes hkfS
      (fun c hc i => nodeBlockKeys_nodup c _ (Hs c hc)) 0
  have hndT : ((groupKeys nodeBlockKeys "t" req.target_nodes 0).flatten).Nodup :=
    groupKeys_flatten_nodup nodeBlockKeys "t" req.target_nodes hkfT
      (fun c hc i => nodeBlockKeys_nodup c _ (Ht c hc)) 0
  have hndR : ((groupKeys relBlockKeys "rel" req.relationships 0).flatten).Nodup :=
    groupKeys_flatten_nodup relBlockKeys "rel" req.relationships hkfR
      (fun c hc i => relBlockKeys_nodup c _ (Hr c hc)) 0
  have hheadS := groupKeys_firstChar nodeBlockKeys "s" 's' [] rfl
    req.source_nodes hkfS 0
  have hheadT := groupKeys_firstChar nodeBlockKeys "t" 't' [] rfl
    req.target_nodes hkfT 0
  have hheadR := groupKeys_firstChar relBlockKeys "rel" 'r' ['e', 'l'] rfl
    req.relationships hkfR 0
  have hndST : ((groupKeys nodeBlockKeys "s" req.source_nodes 0).flatten ++
      (groupKeys nodeBlockKeys "t" req.target_nodes 0).flatten).Nodup := by
    rw [List.nodup_append]
    refine ⟨hndS, hndT, ?_⟩
    intro a ha hb
    have h1 := hheadS a ha
    have h2 := hheadT a hb
    rw [h1] at h2
    simp at h2
  have hndAll : (((groupKeys nodeBlockKeys "s" req.source_nodes 0).flatten ++
      (groupKeys nodeBlockKeys "t" req.target_nodes 0).flatten) ++
      (groupKeys relBlockKeys "rel" req.relationships 0).flatten).Nodup := by
    rw [List.nodup_append]
    refine ⟨hndST, hndR, ?_⟩
    intro a ha hb
    have h2 := hheadR a hb
    rcases List.mem_append.mp ha with h | h
    · have h1 := hheadS a h
      rw [h1] at h2
      simp at h2
    · have h1 := hheadT a h
      rw [h1] at h2
      simp at h2
  have hs0 : keysOf
      (blocksParams (fun c i => buildNodeBlock c "n" i "s") req.source_nodes []) =
      (groupKeys nodeBlockKeys "s" req.source_nodes 0).flatten := by
    have := keysOf_blocksParams (fun c i => buildNodeBlock c "n" i "s")
      nodeBlockKeys "s" req.source_nodes []
      (fun c hc i => keysOf_buildNodeBlock c "n" i "s" (Hs c hc))
      (fun c j h => buildNodeBlock_empty_params c "n" j "s" h)
      (by simpa using hndS)
    simpa using this
  have ht0 : keysOf
      (blocksParams (fun c i => buildNodeBlock c "m" i "t") req.target_nodes
        (blocksParams (fun c i => buildNodeBlock c "n" i "s") req.source_nodes [])) =
      (groupKeys nodeBlockKeys "s" req.source_nodes 0).flatten ++
        (groupKeys nodeBlockKeys "t" req.target_nodes 0).flatten := by
    have := keysOf_blocksParams (fun c i => buildNodeBlock c "m" i "t")
      nodeBlockKeys "t" req.target_nodes
      (blocksParams (fun c i => buildNodeBlock c "n" i "s") req.source_nodes [])
      (fun c hc i => keysOf_buildNodeBlock c "m" i "t" (Ht c hc))
      (fun c j h => buildNodeBlock_empty_params c "m" j "t" h)
      (by rw [hs0]; exact hndST)
    rw [hs0] at this
    exact this
  have hrelkeys : ∀ c ∈ req.relationships, ∀ i,
      keysOf ((if useVariablePath req then buildRelBlockVariable c "p" i
        else buildRelBlockSimple c i) : List Seg × Params).2 =
      relBlockKeys c ("rel" ++ Nat.repr i) := by
    intro c hc i
    by_cases hv : useVariablePath req
    · rw [if_pos hv]
      exact keysOf_buildRelBlockVariable c "p" i (Hr c hc)
    · rw [if_neg hv]
      exact keysOf_buildRelBlockSimple c i (Hr c hc)
  have hrelvac : ∀ (c : RelationshipCriteria) (j : Nat),
      ((if useVariablePath req then buildRelBlockVariable c "p" j
        else buildRelBlockSimple c j) : List Seg × Params).1.isEmpty = true →
      ((if useVariablePath req then buildRelBlockVariable c "p" j
        else buildRelBlockSimple c j) : List Seg × Params).2 = [] := by
    intro c j h
    by_cases hv : useVariablePath req
    · rw [if_pos hv] at h
      rw [buildRelBlockVariable_fst_nonempty] at h
      cases h
    · rw [if_neg hv] at h ⊢
      exact buildRelBlockSimple_empty_params c j h
  rw [buildRelationshipQuery_snd]
  have hr0 := keysOf_blocksParams
    (fun c i => if useVariablePath req then buildRelBlockVariable c "p" i
      else buildRelBlockSimple c i)
    relBlockKeys "rel" req.relationships
    (blocksParams (fun c i => buildNodeBlock c "m" i "t") req.target_nodes
      (blocksParams (fun c i => buildNodeBlock c "n" i "s") req.source_nodes []))
    hrelkeys hrelvac (by rw [ht0]; exact hndAll)
  rw [ht0] at hr0
  exact ⟨hr0, hr0 ▸ hndAll⟩

/-- A request with two conditions on the same property with the same operator in
one block: the key `s0_age_equal` is computed twice, and the Python dict
assignment silently overwrites the first value. -/
def c4Req : GraphFilterRequest :=
  { source_nodes := [{ property_filters :=
      [{ property_name := "age", operator := .EQUAL, value := Value.int 20 },
       { property_name := "age", operator := .EQUAL, value := Value.int 30 }] }] }

/-- C4 counterexample: the claim says the parameter map has exactly N entries
with pairwise-distinct keys for every request with N property conditions — "the
key prefix + sanitized(property_name) + operator_name never collides".  But the
key does not involve the condition's position, so two conditions on the same
property with the same operator in the same block produce the same key: here
N = 2 but the compiled map has a single entry, the first value having been
silently overwritten by the second. -/
theorem c4_counterexample :
    numPropCondsN c4Req.source_nodes = 2 ∧
    (buildNodeQuery c4Req).2 = [("s0_age_equal", Value.int 30)] ∧
    (buildNodeQuery c4Req).2.length = 1 := by
  decide

/-- C4 (amended): if within every block the `sanitized(property)_operator`
suffixes of its conditions are pairwise distinct, then both compiled parameter
maps have pairwise-distinct keys, and the number of entries is exactly the
number of property conditions plus one `_labels`/`_types` entry per block with
a nonempty type list (plus one `g_search` entry for the node query when search
is active).  Across blocks and roles keys never collide — the enumeration
index and the role prefix (`s`/`t`/`rel`, and `g_search`) keep them apart —
but within one block distinctness needs the suffix hypothesis (see the
counterexample). -/
theorem c4_param_keys_unique_when_suffixes_distinct (req : GraphFilterRequest)
    (Hs : ∀ c ∈ req.source_nodes, (c.property_filters.map condSuffix).Nodup)
    (Ht : ∀ c ∈ req.target_nodes, (c.property_filters.map condSuffix).Nodup)
    (Hr : ∀ c ∈ req.relationships, (c.property_filters.map condSuffix).Nodup) :
    ((keysOf (buildNodeQuery req).2).Nodup ∧
      (buildNodeQuery req).2.length =
        numPropCondsN req.source_nodes + numTypeEntriesN req.source_nodes +
          (if searchActive req.search_query then 1 else 0)) ∧
    ((keysOf (buildRelationshipQuery req).2).Nodup ∧
      (buildRelationshipQuery req).2.length =
        (numPropCondsN req.source_nodes + numPropCondsN req.target_nodes +
          numPropCondsR req.relationships) +
        (numTypeEntriesN req.source_nodes + numTypeEntriesN req.target_nodes +
          numTypeEntriesR req.relationships)) := by
  obtain ⟨he1, hn1⟩ := keysOf_buildNodeQuery req Hs
  obtain ⟨he2, hn2⟩ := keysOf_buildRelationshipQuery req Hs Ht Hr
  refine ⟨⟨hn1, ?_⟩, hn2, ?_⟩
  · have hlen : (keysOf (buildNodeQuery req).2).length =
        (buildNodeQuery req).2.length := by
      simp [keysOf]
    rw [← hlen, he1, List.length_append,
      groupKeys_node_length "s" req.source_nodes 0]
    by_cases hq : searchActive req.search_query
    · rw [if_pos hq, if_pos hq]
      rfl
    · rw [if_neg hq, if_neg hq]
      rfl
  · have hlen : (keysOf (buildRelationshipQuery req).2).length =
        (buildRelationshipQuery req).2.length := by
      simp [keysOf]
    rw [← hlen, he2, List.length_append, List.length_append,
      groupKeys_node_length "s" req.source_nodes 0,
      groupKeys_node_length "t" req.target_nodes 0,
      groupKeys_rel_length "rel" req.relationships 0]
    omega

/-- A request with distinct condition suffixes everywhere: two operators on the
same property in the source block, a labelled block, a target condition and a
relationship condition. -/
def c4ReqW : GraphFilterRequest :=
  { source_nodes := [{ node_types := ["Person"], property_filters :=
      [{ property_name := "age", operator := .GREATER, value := Value.int 20 },
       { property_name := "age", operator := .LESS, value := Value.int 50 }] }],
    target_nodes := [{ property_filters :=
      [{ property_name := "name", operator := .CONTAINS, value := Value.str "a" }] }],
    relationships := [{ relationship_types := ["KNOWS"], property_filters :=
      [{ property_name := "since", operator := .EQUAL, value := Value.int 2020 }] }] }

/-- Witness for the amended C4 at a concrete request. -/
theorem c4_param_keys_unique_witness :
    (∀ c ∈ c4ReqW.source_nodes, (c.property_filters.map condSuffix).Nodup) ∧
    (∀ c ∈ c4ReqW.target_nodes, (c.property_filters.map condSuffix).Nodup) ∧
    (∀ c ∈ c4ReqW.relationships, (c.property_filters.map condSuffix).Nodup) ∧
    (((keysOf (buildNodeQuery c4ReqW).2).Nodup ∧
      (buildNodeQuery c4ReqW).2.length =
        numPropCondsN c4ReqW.source_nodes + numTypeEntriesN c4ReqW.source_nodes +
          (if searchActive c4ReqW.search_query then 1 else 0)) ∧
     ((keysOf (buildRelationshipQuery c4ReqW).2).Nodup ∧
      (buildRelationshipQuery c4ReqW).2.length =
        (numPropCondsN c4ReqW.source_nodes + numPropCondsN c4ReqW.target_nodes +
          numPropCondsR c4ReqW.relationships) +
        (numTypeEntriesN c4ReqW.source_nodes + numTypeEntriesN c4ReqW.target_nodes +
          numTypeEntriesR c4ReqW.relationships))) :=
  ⟨by decide, by decide, by decide,
    c4_param_keys_unique_when_suffixes_distinct c4ReqW
      (by decide) (by decide) (by decide)⟩

end GraphFilter
